import Mathlib

/-!
# Verification of the airport landing simulation

Shallow embedding of the two source variants of the airport simulation:

* `src/airport.js` — the multi-runway variant (six runway slots per frame,
  preemption scans a `landingPlanes` array); embedded below under the
  `Multi` namespace.
* `src/unnamed/part_000` — the single-runway variant; embedded under the
  `Single` namespace.

The `Airplane` class, `Simulation` constructor and `generateAirplane` are
identical in both files and are embedded once.  JavaScript numbers holding
fuel and altitude are embedded as `Int` (all arithmetic in the program is
integer arithmetic on values far from any floating-point rounding
boundary).  The per-frame random draw (`Math.random()` in
`generateAirplane`, dictating whether a plane spawns and with how much
fuel) is an oracle input `Option Nat`: `none` means the spawn roll failed,
`some r` means a plane spawns and `r` is the value of
`Math.floor(Math.random() * 900)`, so the new plane's fuel is `r + 100`.
-/

/-- One airplane, mirroring the fields of the `Airplane` class. -/
structure Airplane where
  planeNumber : Nat
  fuel : Int
  fuelRate : Int
  crashed : Bool
  altitude : Int
  landing : Bool
  landed : Bool
  deriving DecidableEq

/-- Embedding of `new Airplane(planeNumber)` given the fuel draw
`r = Math.floor(Math.random() * 900)`. -/
def Airplane.init (planeNumber : Nat) (r : Nat) : Airplane :=
  { planeNumber := planeNumber
    fuel := (r : Int) + 100
    fuelRate := 1
    crashed := false
    altitude := 80
    landing := false
    landed := false }

/-- Embedding of `Airplane.handleLanding`: descend one step; touching altitude 0 marks
the plane landed (JavaScript `!this.altitude` is `altitude === 0`). -/
def Airplane.handleLanding (a : Airplane) : Airplane :=
  let a := { a with altitude := a.altitude - a.fuelRate }
  if a.altitude = 0 then { a with landing := false, landed := true } else a

/-- Embedding of `Airplane.handleCrash`: a plane whose fuel is `<= 0` crashes. -/
def Airplane.handleCrash (a : Airplane) : Airplane :=
  if a.fuel ≤ 0 then { a with crashed := true } else a

/-- Embedding of `Airplane.tick`: no-op when crashed, otherwise burn fuel and either
descend (when landing) or check for a crash. -/
def Airplane.tick (a : Airplane) : Airplane :=
  if a.crashed then a
  else
    let a := { a with fuel := a.fuel - a.fuelRate }
    if a.landing then a.handleLanding else a.handleCrash

/-- Simulation state: the fields of the `Simulation` class. -/
structure SimState where
  airplanes : List Airplane
  frameNumber : Nat
  framerate : Nat
  runNumber : Nat
  control : Bool
  deriving DecidableEq

/-- Embedding of `new Simulation(runNumber, control)`. -/
def Simulation.construct (runNumber : Nat) (control : Bool) : SimState :=
  { airplanes := []
    frameNumber := 0
    framerate := 60
    runNumber := runNumber
    control := control }

/-- Embedding of `Simulation.generateAirplane`, with the random roll supplied as the
oracle value `d`. -/
def generateAirplane (s : SimState) (d : Option Nat) : SimState :=
  match d with
  | none => s
  | some r =>
      { s with airplanes :=
          s.airplanes ++ [Airplane.init (s.airplanes.length + 1) r] }

/-- The frame preamble shared by both variants: advance `frameNumber`,
then run `generateAirplane` (spawning happens before any airplane ticks). -/
def spawnFrame (s : SimState) (d : Option Nat) : SimState :=
  generateAirplane { s with frameNumber := s.frameNumber + 1 } d

/-- What the per-frame scan does to each airplane: planes already landed
are skipped (their `tick` is not called), everyone else ticks. -/
def tickUnlessLanded (a : Airplane) : Airplane :=
  if a.landed then a else a.tick

/-- Comparison against the live minimum-fuel reference: the scan starts
from the sentinel `{ fuel: Infinity }`, against which every fuel value
compares lower. -/
def fuelBelowLowest (low : Option (Nat × Airplane)) (f : Int) : Bool :=
  match low with
  | none => true
  | some x => decide (f < x.2.fuel)

/-- In-place update of the `i`-th element of a list, the embedding of a
mutation through a reference held in the `airplanes` array. -/
def listModify (f : α → α) : Nat → List α → List α
  | _, [] => []
  | 0, a :: rest => f a :: rest
  | n + 1, a :: rest => a :: listModify f n rest

/-- Set the `landing` flag of the `i`-th airplane. -/
def setLanding (planes : List Airplane) (i : Nat) (b : Bool) : List Airplane :=
  listModify (fun a => { a with landing := b }) i planes

namespace Multi

/-- Accumulator of the `forEach` scan in `Simulation.tick` of
`src/airport.js`: the mutated airplane list, the remaining `runways`
counter, the `planeLanding` flag, the indices of the `landingPlanes`
array entries, and the current `lowestAirplane` reference (index plus the
post-tick plane it refers to; `none` is the `{ fuel: Infinity }`
sentinel). -/
structure ScanAcc where
  planes : List Airplane
  runways : Int
  planeLanding : Bool
  landingIdxs : List Nat
  lowest : Option (Nat × Airplane)
  deriving DecidableEq

/-- The accumulator at the top of `Simulation.tick`:
`runways = 6`, no landing planes seen, sentinel `lowestAirplane`. -/
def initAcc : ScanAcc :=
  { planes := [], runways := 6, planeLanding := false, landingIdxs := [], lowest := none }

/-- One iteration of the `forEach` body in `Simulation.tick`
(multi-runway variant): a landed plane is skipped entirely; otherwise the
plane ticks, a landing plane consumes a runway (only when not control)
and joins `landingPlanes`, and a non-landing plane with
`fuel < lowestAirplane.fuel && fuel >= altitude` becomes the new
`lowestAirplane`. -/
def scanStep (c : Bool) (i : Nat) (acc : ScanAcc) (a : Airplane) : ScanAcc :=
  if a.landed = true then { acc with planes := acc.planes ++ [a] }
  else
    let a2 := a.tick
    if a2.landing = true then
      { acc with
          planes := acc.planes ++ [a2]
          runways := if c = true then acc.runways else acc.runways - 1
          planeLanding := true
          landingIdxs := acc.landingIdxs ++ [i] }
    else
      if fuelBelowLowest acc.lowest a2.fuel = true ∧ a2.altitude ≤ a2.fuel then
        { acc with planes := acc.planes ++ [a2], lowest := some (i, a2) }
      else
        { acc with planes := acc.planes ++ [a2] }

/-- The full `forEach` scan of `Simulation.tick` (multi-runway variant). -/
def scan (c : Bool) : Nat → ScanAcc → List Airplane → ScanAcc
  | _, acc, [] => acc
  | i, acc, a :: rest => scan c (i + 1) (scanStep c i acc a) rest

/-- Embedding of `Simulation.startPlaneLanding` (multi-runway variant): guarded by the
truthiness of `this.airplanes.length` and `lowestAirplane.planeNumber`
(the sentinel has no `planeNumber`). -/
def startPlaneLanding (planes : List Airplane) (low : Option (Nat × Airplane)) :
    List Airplane :=
  match low with
  | none => planes
  | some x =>
      if planes.length ≠ 0 ∧ x.2.planeNumber ≠ 0 then setLanding planes x.1 true
      else planes

/-- The `mostFueledPlane` loop of `Simulation.prioritizeLandingOtherPlane`
(multi-runway variant).  The accumulator starts as the sentinel
`{ fuel: -Infinity }` (embedded as `none`), and the source compares
`mostFueledPlane.fuel > landingPlanes[i].fuel` — with the sentinel this
comparison is `-Infinity > fuel`, which is false, so from `none` no entry
is ever selected. -/
def mostFueledScan (planes : List Airplane) (landingIdxs : List Nat) :
    Option (Nat × Airplane) :=
  landingIdxs.foldl
    (fun acc i =>
      match planes[i]?, acc with
      | some p, some x => if x.2.fuel > p.fuel then some (i, p) else acc
      | some _, none => acc
      | none, _ => acc)
    none

/-- Embedding of `Simulation.prioritizeLandingOtherPlane` (multi-runway variant).  When
either reference is still its sentinel the guard
`lowestAirplane.fuel < mostFueledPlane.fuel` is false
(`fuel < -Infinity`, resp. `Infinity < fuel`), so nothing happens. -/
def prioritizeLandingOtherPlane (planes : List Airplane)
    (low : Option (Nat × Airplane)) (landingIdxs : List Nat) : List Airplane :=
  match mostFueledScan planes landingIdxs, low with
  | some mf, some lo =>
      if lo.2.fuel < mf.2.fuel ∧ 81 + mf.2.altitude ≤ mf.2.fuel then
        setLanding (setLanding planes mf.1 false) lo.1 true
      else planes
  | some _, none => planes
  | none, _ => planes

/-- The scan performed by one frame: spawn, then `forEach`. -/
def frameScan (s : SimState) (d : Option Nat) : ScanAcc :=
  scan s.control 0 initAcc (spawnFrame s d).airplanes

/-- Embedding of `Simulation.tick` of `src/airport.js`: spawn, scan, then either the
control admission (`!planeLanding && startPlaneLanding`), or — when not
control — admission while `runways` is truthy, else reprioritization. -/
def tick (s : SimState) (d : Option Nat) : SimState :=
  let s1 := spawnFrame s d
  let r := frameScan s d
  let planes :=
    if s1.control = true then
      if r.planeLanding = true then r.planes
      else startPlaneLanding r.planes r.lowest
    else
      if r.runways ≠ 0 then startPlaneLanding r.planes r.lowest
      else prioritizeLandingOtherPlane r.planes r.lowest r.landingIdxs
  { s1 with airplanes := planes }

/-- Embedding of `Simulation.run` up to exhausting the supplied draw sequence, started
from an arbitrary state. -/
def runFrom (s : SimState) (draws : List (Option Nat)) : SimState :=
  draws.foldl tick s

end Multi

namespace Single

/-- Accumulator of the `forEach` scan in `Simulation.tick` of
`src/unnamed/part_000`: mutated list, `planeLanding` flag, the
`landingPlane` reference (`none` is the `{}` sentinel) and the
`lowestAirplane` reference (`none` is the `{ fuel: Infinity }`
sentinel). -/
structure ScanAcc where
  planes : List Airplane
  planeLanding : Bool
  landingPlane : Option (Nat × Airplane)
  lowest : Option (Nat × Airplane)
  deriving DecidableEq

/-- The accumulator at the top of `Simulation.tick` (single-runway). -/
def initAcc : ScanAcc :=
  { planes := [], planeLanding := false, landingPlane := none, lowest := none }

/-- One iteration of the `forEach` body in `Simulation.tick`
(single-runway variant): tick unless landed; any plane that is landing
afterwards becomes `landingPlane`; any plane with
`fuel < lowestAirplane.fuel && fuel >= 80 && !landed` becomes
`lowestAirplane` (note: the currently landing plane is not excluded). -/
def scanStep (i : Nat) (acc : ScanAcc) (a : Airplane) : ScanAcc :=
  let a2 := tickUnlessLanded a
  let acc := { acc with planes := acc.planes ++ [a2] }
  let acc :=
    if a2.landing = true then
      { acc with landingPlane := some (i, a2), planeLanding := true }
    else acc
  if (fuelBelowLowest acc.lowest a2.fuel && decide (80 ≤ a2.fuel) && !a2.landed) = true then
    { acc with lowest := some (i, a2) }
  else acc

/-- The full `forEach` scan of `Simulation.tick` (single-runway). -/
def scan : Nat → ScanAcc → List Airplane → ScanAcc
  | _, acc, [] => acc
  | i, acc, a :: rest => scan (i + 1) (scanStep i acc a) rest

/-- Embedding of `Simulation.startPlaneLanding` (single-runway variant): fires only
when no plane was landing during the scan. -/
def startPlaneLanding (planeLanding : Bool) (planes : List Airplane)
    (low : Option (Nat × Airplane)) : List Airplane :=
  match low with
  | none => planes
  | some x =>
      if planeLanding = false ∧ planes.length ≠ 0 ∧ x.2.planeNumber ≠ 0 then
        setLanding planes x.1 true
      else planes

/-- Embedding of `Simulation.prioritizeLandingOtherPlane` (single-runway variant):
halt the captured landing plane `q` (index `j`) and start landing the
lowest-fuel plane when `lowest.fuel < q.fuel` and
`q.fuel >= 81 + q.altitude`.  With the sentinel `lowestAirplane` the
first comparison is `Infinity < q.fuel`, which is false. -/
def prioritizeLandingOtherPlane (planes : List Airplane)
    (low : Option (Nat × Airplane)) (j : Nat) (q : Airplane) : List Airplane :=
  match low with
  | none => planes
  | some lo =>
      if lo.2.fuel < q.fuel ∧ 81 + q.altitude ≤ q.fuel then
        setLanding (setLanding planes j false) lo.1 true
      else planes

/-- The scan performed by one frame: spawn, then `forEach`. -/
def frameScan (s : SimState) (d : Option Nat) : ScanAcc :=
  scan 0 initAcc (spawnFrame s d).airplanes

/-- Embedding of `Simulation.tick` of `src/unnamed/part_000`: spawn, scan, admission,
then reprioritization guarded by `landingPlane.planeNumber &&
!this.control`. -/
def tick (s : SimState) (d : Option Nat) : SimState :=
  let s1 := spawnFrame s d
  let r := frameScan s d
  let planes1 := startPlaneLanding r.planeLanding r.planes r.lowest
  let planes2 :=
    match r.landingPlane with
    | none => planes1
    | some x =>
        if x.2.planeNumber ≠ 0 ∧ s1.control = false then
          prioritizeLandingOtherPlane planes1 r.lowest x.1 x.2
        else planes1
  { s1 with airplanes := planes2 }

/-- Embedding of `Simulation.run` up to exhausting the supplied draw sequence. -/
def runFrom (s : SimState) (draws : List (Option Nat)) : SimState :=
  draws.foldl tick s

end Single

/-- Number of crashed airplanes, as counted by `recordCrashes`. -/
def crashCount (s : SimState) : Nat :=
  s.airplanes.countP (fun a => a.crashed)

/-- Number of airplanes whose `landing` flag is set. -/
def landingTrueCount (planes : List Airplane) : Nat :=
  planes.countP (fun a => a.landing)

/-- Number of airplanes that are landing and not yet landed (the planes
actually occupying a runway). -/
def activeLandingCount (planes : List Airplane) : Nat :=
  planes.countP (fun a => a.landing && !a.landed)

/-!
## Characterization infrastructure

The `forEach` scans are folds over the airplane list.  The definitions
below give non-threaded recursive characterizations of each accumulator
component, proved equal to the scans, so that properties of a frame can
be proved by structural induction.
-/

/-- Combine two minimum-fuel selections, the left one earlier in scan
order (so the left wins ties, matching the strict `<` of the source). -/
def merge : Option (Nat × Airplane) → Option (Nat × Airplane) → Option (Nat × Airplane)
  | none, r => r
  | some x, none => some x
  | some x, some y => if y.2.fuel < x.2.fuel then some y else some x

/-- Eligibility of a plane for `lowestAirplane` in the multi-runway scan:
not landed before its tick, not landing after it, and post-tick
`fuel >= altitude`. -/
def Multi.elig (a : Airplane) : Bool :=
  !a.landed && !(tickUnlessLanded a).landing &&
    decide ((tickUnlessLanded a).altitude ≤ (tickUnlessLanded a).fuel)

/-- Eligibility of a plane for `lowestAirplane` in the single-runway scan:
not landed after its tick and post-tick `fuel >= 80` (the currently
landing plane is not excluded). -/
def Single.elig (a : Airplane) : Bool :=
  !(tickUnlessLanded a).landed && decide (80 ≤ (tickUnlessLanded a).fuel)

/-- First minimum-fuel eligible plane of a list (paired with its index
and post-tick state), for a given eligibility test. -/
def bestBy (elig : Airplane → Bool) : Nat → List Airplane → Option (Nat × Airplane)
  | _, [] => none
  | i, a :: rest =>
      if elig a = true then merge (some (i, tickUnlessLanded a)) (bestBy elig (i + 1) rest)
      else bestBy elig (i + 1) rest

/-- Indices collected into `landingPlanes` by the multi-runway scan:
planes not landed before their tick that are landing after it. -/
def Multi.landIdxs : Nat → List Airplane → List Nat
  | _, [] => []
  | i, a :: rest =>
      if a.landed = true then landIdxs (i + 1) rest
      else if (a.tick).landing = true then i :: landIdxs (i + 1) rest
      else landIdxs (i + 1) rest

/-- The plane captured as `landingPlane` by the single-runway scan: the
last plane (in scan order) landing after its tick. -/
def Single.lastLand : Nat → List Airplane → Option (Nat × Airplane)
  | _, [] => none
  | i, a :: rest =>
      match lastLand (i + 1) rest with
      | some x => some x
      | none =>
          if (tickUnlessLanded a).landing = true then some (i, tickUnlessLanded a)
          else none

/-- Combine two last-landing-plane selections, the right one later in
scan order (so the right wins). -/
def mergeLast (lp r : Option (Nat × Airplane)) : Option (Nat × Airplane) :=
  match r with
  | some x => some x
  | none => lp

theorem merge_none_right (l : Option (Nat × Airplane)) : merge l none = l := by
  cases l <;> rfl

theorem merge_assoc (x y z : Option (Nat × Airplane)) :
    merge (merge x y) z = merge x (merge y z) := by
  obtain _ | ⟨i, p⟩ := x
  · rfl
  · obtain _ | ⟨j, q⟩ := y
    · rfl
    · obtain _ | ⟨k, r⟩ := z
      · simp only [merge_none_right]
      · by_cases h1 : q.fuel < p.fuel <;> by_cases h2 : r.fuel < q.fuel <;>
          by_cases h3 : r.fuel < p.fuel <;>
          simp [merge, h1, h2, h3] <;> omega

theorem merge_right_of_below (low : Option (Nat × Airplane)) (i : Nat) (a : Airplane)
    (h : fuelBelowLowest low a.fuel = true) : merge low (some (i, a)) = some (i, a) := by
  cases low with
  | none => rfl
  | some x =>
      simp only [fuelBelowLowest, decide_eq_true_eq] at h
      simp [merge, h]

theorem merge_right_of_not_below (low : Option (Nat × Airplane)) (i : Nat) (a : Airplane)
    (h : fuelBelowLowest low a.fuel = false) : merge low (some (i, a)) = low := by
  cases low with
  | none => simp [fuelBelowLowest] at h
  | some x =>
      simp only [fuelBelowLowest, decide_eq_false_iff_not] at h
      simp [merge, h]

/-- The multi-runway `forEach` scan, characterized componentwise. -/
theorem Multi.scan_char (c : Bool) (ps : List Airplane) :
    ∀ (i : Nat) (acc : ScanAcc),
      scan c i acc ps =
        { planes := acc.planes ++ ps.map tickUnlessLanded
          runways := acc.runways - (if c = true then 0 else ((landIdxs i ps).length : Int))
          planeLanding := acc.planeLanding || !(landIdxs i ps).isEmpty
          landingIdxs := acc.landingIdxs ++ landIdxs i ps
          lowest := merge acc.lowest (bestBy elig i ps) } := by
  induction ps with
  | nil =>
      intro i acc
      simp [scan, landIdxs, bestBy, merge_none_right]
  | cons a rest ih =>
      intro i acc
      by_cases h1 : a.landed = true
      · have hstep : scanStep c i acc a = { acc with planes := acc.planes ++ [a] } := by
          simp [scanStep, h1]
        have he : elig a = false := by simp [elig, h1]
        rw [scan, hstep, ih]
        simp [landIdxs, bestBy, h1, he, tickUnlessLanded]
      · by_cases h2 : (a.tick).landing = true
        · have hstep : scanStep c i acc a =
              { acc with
                  planes := acc.planes ++ [a.tick]
                  runways := if c = true then acc.runways else acc.runways - 1
                  planeLanding := true
                  landingIdxs := acc.landingIdxs ++ [i] } := by
            simp [scanStep, h1, h2]
          have he : elig a = false := by simp [elig, h1, tickUnlessLanded, h2]
          rw [scan, hstep, ih]
          simp [landIdxs, bestBy, h1, h2, he, tickUnlessLanded]
          by_cases hc : c = true <;> simp [hc] <;> omega
        · by_cases h3 : fuelBelowLowest acc.lowest (a.tick).fuel = true
          · by_cases h4 : (a.tick).altitude ≤ (a.tick).fuel
            · have hstep : scanStep c i acc a =
                  { acc with planes := acc.planes ++ [a.tick], lowest := some (i, a.tick) } := by
                simp [scanStep, h1, h2, h3, h4]
              have he : elig a = true := by
                simp [elig, h1, tickUnlessLanded, h2, h4]
              rw [scan, hstep, ih]
              simp [landIdxs, bestBy, h1, h2, he, tickUnlessLanded]
              rw [← merge_assoc, merge_right_of_below acc.lowest i (a.tick) h3]
            · have hstep : scanStep c i acc a =
                  { acc with planes := acc.planes ++ [a.tick] } := by
                simp [scanStep, h1, h2, h3, h4]
              have he : elig a = false := by
                simp [elig, h1, tickUnlessLanded, h2, h4]
              rw [scan, hstep, ih]
              simp [landIdxs, bestBy, h1, h2, he, tickUnlessLanded]
          · have h3' : fuelBelowLowest acc.lowest (a.tick).fuel = false := by
              simpa using h3
            have hstep : scanStep c i acc a =
                { acc with planes := acc.planes ++ [a.tick] } := by
              simp [scanStep, h1, h2, h3']
            rw [scan, hstep, ih]
            by_cases h4 : (a.tick).altitude ≤ (a.tick).fuel
            · have he : elig a = true := by
                simp [elig, h1, tickUnlessLanded, h2, h4]
              simp [landIdxs, bestBy, h1, h2, he, tickUnlessLanded]
              rw [← merge_assoc, merge_right_of_not_below acc.lowest i (a.tick) h3']
            · have he : elig a = false := by
                simp [elig, h1, tickUnlessLanded, h2, h4]
              simp [landIdxs, bestBy, h1, h2, he, tickUnlessLanded]

/-- The single-runway `forEach` scan, characterized componentwise. -/
theorem Single.scan_char_s (ps : List Airplane) :
    ∀ (i : Nat) (acc : ScanAcc),
      scan i acc ps =
        { planes := acc.planes ++ ps.map tickUnlessLanded
          planeLanding :=
            acc.planeLanding || ps.any (fun a => (tickUnlessLanded a).landing)
          landingPlane := mergeLast acc.landingPlane (lastLand i ps)
          lowest := merge acc.lowest (bestBy elig i ps) } := by
  induction ps with
  | nil =>
      intro i acc
      simp [scan, lastLand, bestBy, merge_none_right, mergeLast]
  | cons a rest ih =>
      intro i acc
      rw [scan, ih]
      by_cases h1 : (tickUnlessLanded a).landing = true
      · by_cases h3 : fuelBelowLowest acc.lowest (tickUnlessLanded a).fuel = true
        · by_cases h4 : (80 ≤ (tickUnlessLanded a).fuel ∧ (tickUnlessLanded a).landed = false)
          · have hstep : scanStep i acc a =
                { acc with
                    planes := acc.planes ++ [tickUnlessLanded a]
                    planeLanding := true
                    landingPlane := some (i, tickUnlessLanded a)
                    lowest := some (i, tickUnlessLanded a) } := by
              simp [scanStep, h1, h3, h4.1, h4.2]
            have he : elig a = true := by simp [elig, h4.1, h4.2]
            rw [hstep]
            simp only [bestBy, he, if_true]
            cases hr : lastLand (i + 1) rest with
            | some x =>
                simp [lastLand, hr, mergeLast, h1]
                rw [← merge_assoc, merge_right_of_below acc.lowest i _ h3]
            | none =>
                simp [lastLand, hr, mergeLast, h1]
                rw [← merge_assoc, merge_right_of_below acc.lowest i _ h3]
          · have hfalse : ¬((fuelBelowLowest acc.lowest (tickUnlessLanded a).fuel &&
                decide (80 ≤ (tickUnlessLanded a).fuel) && !(tickUnlessLanded a).landed) = true) := by
              rcases not_and_or.mp h4 with h | h
              · simp [h]
              · have hl : (tickUnlessLanded a).landed = true := by simpa using h
                simp [hl]
            have hstep : scanStep i acc a =
                { acc with
                    planes := acc.planes ++ [tickUnlessLanded a]
                    planeLanding := true
                    landingPlane := some (i, tickUnlessLanded a) } := by
              simp [scanStep, h1, hfalse]
            have he : elig a = false := by
              rcases not_and_or.mp h4 with h | h
              · simp [elig, h]
              · have hl : (tickUnlessLanded a).landed = true := by simpa using h
                simp [elig, hl]
            rw [hstep]
            simp only [bestBy, he, Bool.false_eq_true, if_false]
            cases hr : lastLand (i + 1) rest with
            | some x => simp [lastLand, hr, mergeLast, h1]
            | none => simp [lastLand, hr, mergeLast, h1]
        · have h3' : fuelBelowLowest acc.lowest (tickUnlessLanded a).fuel = false := by
            simpa using h3
          have hstep : scanStep i acc a =
              { acc with
                  planes := acc.planes ++ [tickUnlessLanded a]
                  planeLanding := true
                  landingPlane := some (i, tickUnlessLanded a) } := by
            simp [scanStep, h1, h3']
          rw [hstep]
          by_cases he : elig a = true
          · simp only [bestBy, he, if_true]
            cases hr : lastLand (i + 1) rest with
            | some x =>
                simp [lastLand, hr, mergeLast, h1]
                rw [← merge_assoc, merge_right_of_not_below acc.lowest i _ h3']
            | none =>
                simp [lastLand, hr, mergeLast, h1]
                rw [← merge_assoc, merge_right_of_not_below acc.lowest i _ h3']
          · have he' : elig a = false := by simpa using he
            simp only [bestBy, he', Bool.false_eq_true, if_false]
            cases hr : lastLand (i + 1) rest with
            | some x => simp [lastLand, hr, mergeLast, h1]
            | none => simp [lastLand, hr, mergeLast, h1]
      · have h1' : (tickUnlessLanded a).landing = false := by simpa using h1
        by_cases h3 : fuelBelowLowest acc.lowest (tickUnlessLanded a).fuel = true
        · by_cases h4 : (80 ≤ (tickUnlessLanded a).fuel ∧ (tickUnlessLanded a).landed = false)
          · have hstep : scanStep i acc a =
                { acc with
                    planes := acc.planes ++ [tickUnlessLanded a]
                    lowest := some (i, tickUnlessLanded a) } := by
              simp [scanStep, h1', h3, h4.1, h4.2]
            have he : elig a = true := by simp [elig, h4.1, h4.2]
            rw [hstep]
            simp only [bestBy, he, if_true]
            cases hr : lastLand (i + 1) rest with
            | some x =>
                simp [lastLand, hr, mergeLast, h1']
                rw [← merge_assoc, merge_right_of_below acc.lowest i _ h3]
            | none =>
                simp [lastLand, hr, mergeLast, h1']
                rw [← merge_assoc, merge_right_of_below acc.lowest i _ h3]
          · have hfalse : ¬((fuelBelowLowest acc.lowest (tickUnlessLanded a).fuel &&
                decide (80 ≤ (tickUnlessLanded a).fuel) && !(tickUnlessLanded a).landed) = true) := by
              rcases not_and_or.mp h4 with h | h
              · simp [h]
              · have hl : (tickUnlessLanded a).landed = true := by simpa using h
                simp [hl]
            have hstep : scanStep i acc a =
                { acc with planes := acc.planes ++ [tickUnlessLanded a] } := by
              simp [scanStep, h1', hfalse]
            have he : elig a = false := by
              rcases not_and_or.mp h4 with h | h
              · simp [elig, h]
              · have hl : (tickUnlessLanded a).landed = true := by simpa using h
                simp [elig, hl]
            rw [hstep]
            simp only [bestBy, he, Bool.false_eq_true, if_false]
            cases hr : lastLand (i + 1) rest with
            | some x => simp [lastLand, hr, mergeLast, h1']
            | none => simp [lastLand, hr, mergeLast, h1']
        · have h3' : fuelBelowLowest acc.lowest (tickUnlessLanded a).fuel = false := by
            simpa using h3
          have hstep : scanStep i acc a =
              { acc with planes := acc.planes ++ [tickUnlessLanded a] } := by
            simp [scanStep, h1', h3']
          rw [hstep]
          by_cases he : elig a = true
          · simp only [bestBy, he, if_true]
            cases hr : lastLand (i + 1) rest with
            | some x =>
                simp [lastLand, hr, mergeLast, h1']
                rw [← merge_assoc, merge_right_of_not_below acc.lowest i _ h3']
            | none =>
                simp [lastLand, hr, mergeLast, h1']
                rw [← merge_assoc, merge_right_of_not_below acc.lowest i _ h3']
          · have he' : elig a = false := by simpa using he
            simp only [bestBy, he', Bool.false_eq_true, if_false]
            cases hr : lastLand (i + 1) rest with
            | some x => simp [lastLand, hr, mergeLast, h1']
            | none => simp [lastLand, hr, mergeLast, h1']

theorem bestBy_none_iff (elig : Airplane → Bool) :
    ∀ (ps : List Airplane) (i : Nat),
      bestBy elig i ps = none ↔ ∀ a ∈ ps, elig a = false := by
  intro ps
  induction ps with
  | nil => intro i; simp [bestBy]
  | cons a rest ih =>
      intro i
      by_cases he : elig a = true
      · simp only [bestBy, he, if_true]
        constructor
        · intro h
          exfalso
          cases hr : bestBy elig (i + 1) rest with
          | none => rw [hr] at h; simp [merge_none_right] at h
          | some x =>
              rw [hr] at h
              simp only [merge] at h
              split_ifs at h <;> simp at h
        · intro h
          exact absurd (h a (by simp)) (by simp [he])
      · have he' : elig a = false := by simpa using he
        simp only [bestBy, he', Bool.false_eq_true, if_false]
        rw [ih (i + 1)]
        constructor
        · intro h b hb
          rcases List.mem_cons.mp hb with rfl | hb
          · exact he'
          · exact h b hb
        · intro h b hb
          exact h b (List.mem_cons_of_mem a hb)

theorem bestBy_sound (elig : Airplane → Bool) :
    ∀ (ps : List Airplane) (i k : Nat) (p : Airplane),
      bestBy elig i ps = some (k, p) →
      ∃ m a, ps[m]? = some a ∧ elig a = true ∧ k = i + m ∧ p = tickUnlessLanded a := by
  intro ps
  induction ps with
  | nil => intro i k p h; simp [bestBy] at h
  | cons a rest ih =>
      intro i k p h
      by_cases he : elig a = true
      · simp only [bestBy, he, if_true] at h
        cases hr : bestBy elig (i + 1) rest with
        | none =>
            rw [hr, merge_none_right] at h
            refine ⟨0, a, by simp, he, ?_, ?_⟩ <;> simp_all
        | some x =>
            rw [hr] at h
            simp only [merge] at h
            split_ifs at h with hlt
            · obtain ⟨m, b, hb, hbe, hk, hp⟩ := ih (i + 1) x.1 x.2 (by rw [hr])
              cases h
              exact ⟨m + 1, b, by simpa using hb, hbe, by omega, hp⟩
            · cases h
              exact ⟨0, a, by simp, he, by omega, rfl⟩
      · have he' : elig a = false := by simpa using he
        simp only [bestBy, he', Bool.false_eq_true, if_false] at h
        obtain ⟨m, b, hb, hbe, hk, hp⟩ := ih (i + 1) k p h
        exact ⟨m + 1, b, by simpa using hb, hbe, by omega, hp⟩

theorem bestBy_min (elig : Airplane → Bool) :
    ∀ (ps : List Airplane) (i k : Nat) (p : Airplane),
      bestBy elig i ps = some (k, p) →
      ∀ (m : Nat) (b : Airplane), ps[m]? = some b → elig b = true →
        p.fuel ≤ (tickUnlessLanded b).fuel := by
  intro ps
  induction ps with
  | nil => intro i k p h; simp [bestBy] at h
  | cons a rest ih =>
      intro i k p h m b hb hbe
      by_cases he : elig a = true
      · simp only [bestBy, he, if_true] at h
        cases hr : bestBy elig (i + 1) rest with
        | none =>
            rw [hr, merge_none_right] at h
            simp only [Option.some_inj, Prod.mk.injEq] at h
            cases m with
            | zero =>
                simp only [List.getElem?_cons_zero, Option.some_inj] at hb
                rw [← h.2, ← hb]
            | succ m' =>
                simp only [List.getElem?_cons_succ] at hb
                have hf : elig b = false :=
                  (bestBy_none_iff elig rest (i + 1)).mp hr b (List.getElem?_mem hb)
                simp [hbe] at hf
        | some x =>
            obtain ⟨k2, p2⟩ := x
            rw [hr] at h
            simp only [merge] at h
            split_ifs at h with hlt
            · simp only [Option.some_inj, Prod.mk.injEq] at h
              cases m with
              | zero =>
                  simp only [List.getElem?_cons_zero, Option.some_inj] at hb
                  rw [← h.2, ← hb]
                  exact le_of_lt hlt
              | succ m' =>
                  simp only [List.getElem?_cons_succ] at hb
                  rw [← h.2]
                  exact ih (i + 1) k2 p2 hr m' b hb hbe
            · simp only [Option.some_inj, Prod.mk.injEq] at h
              cases m with
              | zero =>
                  simp only [List.getElem?_cons_zero, Option.some_inj] at hb
                  rw [← h.2, ← hb]
              | succ m' =>
                  simp only [List.getElem?_cons_succ] at hb
                  have hx := ih (i + 1) k2 p2 hr m' b hb hbe
                  simp only [not_lt] at hlt
                  calc p.fuel = (tickUnlessLanded a).fuel := by rw [← h.2]
                    _ ≤ p2.fuel := hlt
                    _ ≤ (tickUnlessLanded b).fuel := hx
      · have he' : elig a = false := by simpa using he
        simp only [bestBy, he', Bool.false_eq_true, if_false] at h
        cases m with
        | zero =>
            simp only [List.getElem?_cons_zero, Option.some_inj] at hb
            rw [← hb] at hbe
            simp [hbe] at he'
        | succ m' =>
            simp only [List.getElem?_cons_succ] at hb
            exact ih (i + 1) k p h m' b hb hbe

theorem bestBy_first (elig : Airplane → Bool) :
    ∀ (ps : List Airplane) (i k : Nat) (p : Airplane),
      bestBy elig i ps = some (k, p) →
      ∀ (m : Nat) (b : Airplane), ps[m]? = some b → elig b = true → i + m < k →
        p.fuel < (tickUnlessLanded b).fuel := by
  intro ps
  induction ps with
  | nil => intro i k p h; simp [bestBy] at h
  | cons a rest ih =>
      intro i k p h m b hb hbe hm
      by_cases he : elig a = true
      · simp only [bestBy, he, if_true] at h
        cases hr : bestBy elig (i + 1) rest with
        | none =>
            rw [hr, merge_none_right] at h
            simp only [Option.some_inj, Prod.mk.injEq] at h
            omega
        | some x =>
            obtain ⟨k2, p2⟩ := x
            rw [hr] at h
            simp only [merge] at h
            split_ifs at h with hlt
            · simp only [Option.some_inj, Prod.mk.injEq] at h
              cases m with
              | zero =>
                  simp only [List.getElem?_cons_zero, Option.some_inj] at hb
                  rw [← h.2, ← hb]
                  exact hlt
              | succ m' =>
                  simp only [List.getElem?_cons_succ] at hb
                  rw [← h.2]
                  refine ih (i + 1) k2 p2 hr m' b hb hbe ?_
                  omega
            · simp only [Option.some_inj, Prod.mk.injEq] at h
              omega
      · have he' : elig a = false := by simpa using he
        simp only [bestBy, he', Bool.false_eq_true, if_false] at h
        cases m with
        | zero =>
            simp only [List.getElem?_cons_zero, Option.some_inj] at hb
            rw [← hb] at hbe
            simp [hbe] at he'
        | succ m' =>
            simp only [List.getElem?_cons_succ] at hb
            refine ih (i + 1) k p h m' b hb hbe ?_
            omega

theorem lastLand_sound :
    ∀ (ps : List Airplane) (i j : Nat) (q : Airplane),
      Single.lastLand i ps = some (j, q) →
      ∃ m a, ps[m]? = some a ∧ j = i + m ∧ q = tickUnlessLanded a ∧ q.landing = true := by
  intro ps
  induction ps with
  | nil => intro i j q h; simp [Single.lastLand] at h
  | cons a rest ih =>
      intro i j q h
      rw [Single.lastLand] at h
      cases hr : Single.lastLand (i + 1) rest with
      | some x =>
          obtain ⟨j2, q2⟩ := x
          rw [hr] at h
          simp only [Option.some_inj, Prod.mk.injEq] at h
          obtain ⟨rfl, rfl⟩ := h
          obtain ⟨m, b, hb, hj, hq, hl⟩ := ih (i + 1) j2 q2 hr
          exact ⟨m + 1, b, by simpa using hb, by omega, hq, hl⟩
      | none =>
          rw [hr] at h
          split_ifs at h with hl
          simp only [Option.some_inj, Prod.mk.injEq] at h
          refine ⟨0, a, by simp, by omega, ?_, ?_⟩
          · rw [← h.2]
          · rw [← h.2]; exact hl

theorem lastLand_none_iff :
    ∀ (ps : List Airplane) (i : Nat),
      Single.lastLand i ps = none ↔
        (ps.any (fun a => (tickUnlessLanded a).landing)) = false := by
  intro ps
  induction ps with
  | nil => intro i; simp [Single.lastLand]
  | cons a rest ih =>
      intro i
      rw [Single.lastLand]
      cases hr : Single.lastLand (i + 1) rest with
      | some x =>
          simp only
          constructor
          · intro h; cases h
          · intro h
            simp only [List.any_cons, Bool.or_eq_false_iff] at h
            exact absurd ((ih (i + 1)).mpr h.2) (by rw [hr]; simp)
      | none =>
          have hrest := (ih (i + 1)).mp hr
          split_ifs with hl
          · simp [hl]
          · simp only [List.any_cons, Bool.or_eq_false_iff]
            constructor
            · intro _
              exact ⟨by simpa using hl, hrest⟩
            · intro _
              trivial

theorem listModify_length (f : α → α) :
    ∀ (i : Nat) (l : List α), (listModify f i l).length = l.length := by
  intro i l
  induction l generalizing i with
  | nil => cases i <;> rfl
  | cons a rest ih => cases i <;> simp [listModify, ih]

theorem listModify_getElem? (f : α → α) :
    ∀ (l : List α) (i j : Nat),
      (listModify f i l)[j]? = if j = i then (l[j]?).map f else l[j]? := by
  intro l
  induction l with
  | nil => intro i j; cases i <;> cases j <;> simp [listModify]
  | cons a rest ih =>
      intro i j
      cases i with
      | zero => cases j <;> simp [listModify]
      | succ i' =>
          cases j with
          | zero => simp [listModify]
          | succ j' =>
              simp only [listModify, List.getElem?_cons_succ]
              rw [ih i' j']
              by_cases h : j' = i' <;> simp [h]

theorem listModify_of_getElem?_none (f : α → α) :
    ∀ (l : List α) (i : Nat), l[i]? = none → listModify f i l = l := by
  intro l
  induction l with
  | nil => intro i _; cases i <;> rfl
  | cons a rest ih =>
      intro i h
      cases i with
      | zero => simp at h
      | succ i' => simp only [listModify]; rw [ih i' (by simpa using h)]

theorem countP_listModify (q : α → Bool) (f : α → α) :
    ∀ (l : List α) (i : Nat) (x : α), l[i]? = some x →
      (listModify f i l).countP q + (if q x = true then 1 else 0)
        = l.countP q + (if q (f x) = true then 1 else 0) := by
  intro l
  induction l with
  | nil => intro i x h; simp at h
  | cons b rest ih =>
      intro i x h
      cases i with
      | zero =>
          simp only [List.getElem?_cons_zero, Option.some_inj] at h
          rw [← h]
          simp only [listModify, List.countP_cons]
          by_cases h1 : q b = true <;> by_cases h2 : q (f b) = true <;>
            simp [h1, h2] <;> omega
      | succ i' =>
          simp only [List.getElem?_cons_succ] at h
          simp only [listModify, List.countP_cons]
          have := ih i' x h
          omega

theorem countP_listModify_le (q : α → Bool) (f : α → α) (l : List α) (i : Nat) :
    (listModify f i l).countP q ≤ l.countP q + 1 := by
  cases h : l[i]? with
  | none => rw [listModify_of_getElem?_none f l i h]; omega
  | some x =>
      have := countP_listModify q f l i x h
      by_cases h1 : q x = true <;> by_cases h2 : q (f x) = true <;>
        simp [h1, h2] at this <;> omega

/-!
## Per-airplane invariants
-/

/-- Invariant of a single airplane maintained by every frame of either
variant: unit fuel rate, altitude within `[0, 80]` (and positive until
landed), a landing plane has enough fuel for its remaining descent, a
crashed plane is out of fuel and neither landing nor landed, and a landed
plane finished with non-negative fuel and never crashes. -/
def planeInv (a : Airplane) : Prop :=
  a.fuelRate = 1 ∧
  0 ≤ a.altitude ∧ a.altitude ≤ 80 ∧
  (a.landed = false → 1 ≤ a.altitude) ∧
  (a.landing = true → a.altitude ≤ a.fuel) ∧
  (a.crashed = true → a.fuel ≤ 0 ∧ a.landing = false ∧ a.landed = false) ∧
  (a.landed = true → 0 ≤ a.fuel ∧ a.crashed = false)

instance (a : Airplane) : Decidable (planeInv a) := by
  unfold planeInv; infer_instance

theorem planeInv_init (n r : Nat) : planeInv (Airplane.init n r) := by
  refine ⟨rfl, by simp [Airplane.init], by simp [Airplane.init],
    fun _ => by simp [Airplane.init], ?_, ?_, ?_⟩ <;>
    intro h <;> simp [Airplane.init] at h

theorem Airplane.tick_of_crashed (a : Airplane) (h : a.crashed = true) : a.tick = a := by
  simp [Airplane.tick, h]

theorem tickUnlessLanded_of_terminal (a : Airplane)
    (h : a.landed = true ∨ a.crashed = true) : tickUnlessLanded a = a := by
  rcases h with h | h
  · simp [tickUnlessLanded, h]
  · by_cases h2 : a.landed = true
    · simp [tickUnlessLanded, h2]
    · simp only [tickUnlessLanded]
      rw [if_neg (by simp [h2])]
      exact a.tick_of_crashed h

theorem tick_landing_mono (a : Airplane) (h : (a.tick).landing = true) :
    a.landing = true := by
  by_cases hc : a.crashed = true
  · rwa [a.tick_of_crashed hc] at h
  · by_cases hl : a.landing = true
    · exact hl
    · exfalso
      have hc' : a.crashed = false := by simpa using hc
      have hl' : a.landing = false := by simpa using hl
      simp only [Airplane.tick, Airplane.handleCrash, hc', hl'] at h
      split_ifs at h <;> simp_all

theorem tick_landing_not_landed (a : Airplane) (hl : a.landed = false)
    (h : (a.tick).landing = true) : (a.tick).landed = false := by
  by_cases hc : a.crashed = true
  · rwa [a.tick_of_crashed hc] at h ⊢
  · have hc' : a.crashed = false := by simpa using hc
    have hland : a.landing = true := tick_landing_mono a h
    simp only [Airplane.tick, Airplane.handleLanding, hc', hland] at h ⊢
    split_ifs at h ⊢ <;> simp_all

theorem tickUnlessLanded_landing_mono (a : Airplane)
    (h : (tickUnlessLanded a).landing = true) : a.landing = true := by
  by_cases hl : a.landed = true
  · rwa [tickUnlessLanded, if_pos (by simp [hl])] at h
  · rw [tickUnlessLanded, if_neg (by simp [hl])] at h
    exact tick_landing_mono a h

theorem tickUnlessLanded_active_mono (a : Airplane)
    (h : ((tickUnlessLanded a).landing && !(tickUnlessLanded a).landed) = true) :
    (a.landing && !a.landed) = true := by
  by_cases hl : a.landed = true
  · rw [tickUnlessLanded, if_pos (by simp [hl])] at h
    exact h
  · have hl' : a.landed = false := by simpa using hl
    rw [tickUnlessLanded, if_neg (by simp [hl])] at h
    simp only [Bool.and_eq_true] at h
    simp [tick_landing_mono a h.1, hl']

theorem planeInv_tickUnlessLanded (a : Airplane) (h : planeInv a) :
    planeInv (tickUnlessLanded a) := by
  obtain ⟨h1, h2, h3, h4, h5, h6, h7⟩ := h
  by_cases hld : a.landed = true
  · rw [tickUnlessLanded, if_pos (by simp [hld])]
    exact ⟨h1, h2, h3, h4, h5, h6, h7⟩
  · have hld' : a.landed = false := by simpa using hld
    rw [tickUnlessLanded, if_neg (by simp [hld])]
    by_cases hc : a.crashed = true
    · rw [a.tick_of_crashed hc]
      exact ⟨h1, h2, h3, h4, h5, h6, h7⟩
    · have hc' : a.crashed = false := by simpa using hc
      by_cases hl : a.landing = true
      · simp only [Airplane.tick, Airplane.handleLanding, hc', hl, if_false, if_true,
          Bool.false_eq_true]
        have hfuel := h5 hl
        have halt := h4 hld'
        split_ifs with h0
        · refine ⟨h1, ?_⟩
          simp only [planeInv] at *
          simp_all
          omega
        · simp only [planeInv] at *
          simp_all
          omega
      · have hl' : a.landing = false := by simpa using hl
        simp only [Airplane.tick, Airplane.handleCrash, hc', hl', if_false, Bool.false_eq_true]
        split_ifs with h0
        · simp only [planeInv] at *
          simp_all
        · simp only [planeInv] at *
          simp_all

/-- Every plane in a list satisfies the per-plane invariant. -/
def AllInv (planes : List Airplane) : Prop := ∀ a ∈ planes, planeInv a

theorem AllInv_map_tick (planes : List Airplane) (h : AllInv planes) :
    AllInv (planes.map tickUnlessLanded) := by
  intro b hb
  rw [List.mem_map] at hb
  obtain ⟨a, ha, rfl⟩ := hb
  exact planeInv_tickUnlessLanded a (h a ha)

theorem planeInv_set_landing_true (p : Airplane) (h : planeInv p) (hc : p.crashed = false)
    (hf : p.altitude ≤ p.fuel) : planeInv { p with landing := true } := by
  obtain ⟨h1, h2, h3, h4, h5, h6, h7⟩ := h
  refine ⟨h1, h2, h3, h4, fun _ => hf, ?_, ?_⟩
  · intro hcr
    exact absurd hcr (by simp [hc])
  · intro hld
    exact ⟨le_trans h2 hf, by simpa using hc⟩

theorem planeInv_set_landing_false (p : Airplane) (h : planeInv p) :
    planeInv { p with landing := false } := by
  obtain ⟨h1, h2, h3, h4, h5, h6, h7⟩ := h
  refine ⟨h1, h2, h3, h4, by simp, ?_, ?_⟩
  · intro hcr
    simp only at hcr
    obtain ⟨ha, _, hb⟩ := h6 hcr
    exact ⟨ha, rfl, hb⟩
  · intro hld
    simpa using h7 hld

theorem AllInv_listModify (planes : List Airplane) (f : Airplane → Airplane) (i : Nat)
    (h : AllInv planes) (hf : ∀ p, planes[i]? = some p → planeInv (f p)) :
    AllInv (listModify f i planes) := by
  intro b hb
  rw [List.mem_iff_getElem?] at hb
  obtain ⟨j, hj⟩ := hb
  rw [listModify_getElem? f planes i j] at hj
  by_cases hij : j = i
  · rw [if_pos hij] at hj
    cases hp : planes[j]? with
    | none => rw [hp] at hj; simp at hj
    | some p =>
        rw [hp] at hj
        simp only [Option.map_some', Option.some_inj] at hj
        rw [← hj]
        exact hf p (hij ▸ hp)
  · rw [if_neg hij] at hj
    exact h b (List.getElem?_mem hj)

/-- Eligibility for `lowestAirplane` in the multi-runway scan implies,
for an invariant-satisfying plane, that its post-tick state is neither
crashed nor landing and has enough fuel for its altitude. -/
theorem Multi.elig_facts (a : Airplane) (hinv : planeInv a) (he : elig a = true) :
    (tickUnlessLanded a).crashed = false ∧ (tickUnlessLanded a).landing = false ∧
      (tickUnlessLanded a).altitude ≤ (tickUnlessLanded a).fuel := by
  simp only [elig, Bool.and_eq_true, Bool.not_eq_true', decide_eq_true_eq] at he
  obtain ⟨⟨hld, hlg⟩, hf⟩ := he
  have hinv' := planeInv_tickUnlessLanded a hinv
  obtain ⟨_, h2, _, h4, _, h6, _⟩ := hinv'
  refine ⟨?_, hlg, hf⟩
  by_cases hc : (tickUnlessLanded a).crashed = true
  · obtain ⟨hfuel, _, hld2⟩ := h6 hc
    have := h4 hld2
    omega
  · simpa using hc

/-- Eligibility for `lowestAirplane` in the single-runway scan implies,
for an invariant-satisfying plane, that its post-tick state is neither
crashed nor landed and has enough fuel for its altitude. -/
theorem Single.elig_facts_s (a : Airplane) (hinv : planeInv a) (he : elig a = true) :
    (tickUnlessLanded a).crashed = false ∧ (tickUnlessLanded a).landed = false ∧
      (tickUnlessLanded a).altitude ≤ (tickUnlessLanded a).fuel := by
  simp only [elig, Bool.and_eq_true, Bool.not_eq_true', decide_eq_true_eq] at he
  obtain ⟨hld, hf⟩ := he
  have hinv' := planeInv_tickUnlessLanded a hinv
  obtain ⟨_, h2, h3, h4, _, h6, _⟩ := hinv'
  have hcr : (tickUnlessLanded a).crashed = false := by
    by_cases hc : (tickUnlessLanded a).crashed = true
    · obtain ⟨hfuel, _, _⟩ := h6 hc
      omega
    · simpa using hc
  exact ⟨hcr, hld, le_trans h3 hf⟩

theorem Multi.landIdxs_length (ps : List Airplane) :
    ∀ i, (landIdxs i ps).length =
      ps.countP (fun a => (tickUnlessLanded a).landing && !(tickUnlessLanded a).landed) := by
  induction ps with
  | nil => intro i; simp [landIdxs]
  | cons a rest ih =>
      intro i
      by_cases h1 : a.landed = true
      · have hz : ((tickUnlessLanded a).landing && !(tickUnlessLanded a).landed) = false := by
          simp [tickUnlessLanded, h1]
        simp [landIdxs, h1, List.countP_cons, hz, ih (i + 1)]
      · have h1' : a.landed = false := by simpa using h1
        by_cases h2 : (a.tick).landing = true
        · have hz : ((tickUnlessLanded a).landing && !(tickUnlessLanded a).landed) = true := by
            simp [tickUnlessLanded, h1', h2, tick_landing_not_landed a h1' h2]
          simp [landIdxs, h1, h2, List.countP_cons, hz, ih (i + 1)]
        · have hz : ((tickUnlessLanded a).landing && !(tickUnlessLanded a).landed) = false := by
            simp only [tickUnlessLanded, h1', Bool.false_eq_true, if_false]
            simp [show (a.tick).landing = false by simpa using h2]
          simp [landIdxs, h1, h2, List.countP_cons, hz, ih (i + 1)]

theorem Multi.mostFueledScan_eq_none (planes : List Airplane) (idxs : List Nat) :
    mostFueledScan planes idxs = none := by
  unfold mostFueledScan
  induction idxs with
  | nil => rfl
  | cons j rest ih =>
      rw [List.foldl_cons]
      cases hp : planes[j]? with
      | none => simpa [hp] using ih
      | some p => simpa [hp] using ih

/-- Because of the inverted comparison in the most-fueled scan, the
multi-runway reprioritization never changes anything. -/
theorem Multi.prioritize_eq (planes : List Airplane) (low : Option (Nat × Airplane))
    (idxs : List Nat) : prioritizeLandingOtherPlane planes low idxs = planes := by
  unfold prioritizeLandingOtherPlane
  rw [mostFueledScan_eq_none]

/-!
## Frame-level lemmas and reachability invariants
-/

theorem foldl_preserve {σ : Type} (tk : σ → Option Nat → σ) (P : σ → Prop)
    (hstep : ∀ s d, P s → P (tk s d)) :
    ∀ (draws : List (Option Nat)) (s : σ), P s → P (List.foldl tk s draws) := by
  intro draws
  induction draws with
  | nil => intro s h; exact h
  | cons d rest ih => intro s h; exact ih _ (hstep s d h)

theorem spawnFrame_control (s : SimState) (d : Option Nat) :
    (spawnFrame s d).control = s.control := by cases d <;> rfl

theorem Multi.tick_control (s : SimState) (d : Option Nat) :
    (tick s d).control = s.control := by cases d <;> rfl

theorem Single.tick_control_s (s : SimState) (d : Option Nat) :
    (tick s d).control = s.control := by cases d <;> rfl

theorem spawnFrame_AllInv (s : SimState) (d : Option Nat) (h : AllInv s.airplanes) :
    AllInv (spawnFrame s d).airplanes := by
  cases d with
  | none => exact h
  | some r =>
      intro a ha
      rcases List.mem_append.mp ha with ha | ha
      · exact h a ha
      · rw [List.mem_singleton] at ha
        subst ha
        exact planeInv_init _ _

theorem spawnFrame_countP (s : SimState) (d : Option Nat) (q : Airplane → Bool)
    (hq : ∀ n r, q (Airplane.init n r) = false) :
    (spawnFrame s d).airplanes.countP q = s.airplanes.countP q := by
  cases d with
  | none => rfl
  | some r =>
      simp [spawnFrame, generateAirplane, List.countP_append, List.countP_cons, hq]

theorem spawnFrame_getElem? (s : SimState) (d : Option Nat) (k : Nat) (a : Airplane)
    (h : s.airplanes[k]? = some a) : (spawnFrame s d).airplanes[k]? = some a := by
  cases d with
  | none => exact h
  | some r =>
      have hlen : k < s.airplanes.length := (List.getElem?_eq_some.mp h).1
      simp only [spawnFrame, generateAirplane]
      rw [List.getElem?_append_left hlen]
      exact h

theorem Multi.scan0_planes (c : Bool) (ps : List Airplane) :
    (scan c 0 initAcc ps).planes = ps.map tickUnlessLanded := by
  rw [scan_char]
  simp [initAcc]

theorem Multi.scan0_lowest (c : Bool) (ps : List Airplane) :
    (scan c 0 initAcc ps).lowest = bestBy elig 0 ps := by
  rw [scan_char]
  rfl

theorem Multi.scan0_runways (c : Bool) (ps : List Airplane) :
    (scan c 0 initAcc ps).runways =
      6 - (if c = true then 0 else ((landIdxs 0 ps).length : Int)) := by
  rw [scan_char]
  rfl

theorem Multi.scan0_planeLanding (c : Bool) (ps : List Airplane) :
    (scan c 0 initAcc ps).planeLanding = !(landIdxs 0 ps).isEmpty := by
  rw [scan_char]
  simp [initAcc]

theorem Multi.scan0_landingIdxs (c : Bool) (ps : List Airplane) :
    (scan c 0 initAcc ps).landingIdxs = landIdxs 0 ps := by
  rw [scan_char]
  simp [initAcc]

theorem Single.scan0_planes_s (ps : List Airplane) :
    (scan 0 initAcc ps).planes = ps.map tickUnlessLanded := by
  rw [scan_char_s]
  simp [initAcc]

theorem Single.scan0_lowest_s (ps : List Airplane) :
    (scan 0 initAcc ps).lowest = bestBy elig 0 ps := by
  rw [scan_char_s]
  rfl

theorem Single.scan0_planeLanding_s (ps : List Airplane) :
    (scan 0 initAcc ps).planeLanding =
      ps.any (fun a => (tickUnlessLanded a).landing) := by
  rw [scan_char_s]
  simp [initAcc]

theorem Single.scan0_landingPlane (ps : List Airplane) :
    (scan 0 initAcc ps).landingPlane = lastLand 0 ps := by
  rw [scan_char_s]
  show mergeLast none (lastLand 0 ps) = lastLand 0 ps
  cases lastLand 0 ps <;> rfl

theorem Multi.elig_false_of_terminal (a : Airplane) (hinv : planeInv a)
    (hterm : a.landed = true ∨ a.crashed = true) : elig a = false := by
  rcases hterm with h | h
  · simp [elig, h]
  · obtain ⟨_, _, _, h4, _, h6, _⟩ := hinv
    obtain ⟨hf, hlg, hld⟩ := h6 h
    have halt := h4 hld
    have hne : ¬(a.altitude ≤ a.fuel) := by omega
    simp [elig, tickUnlessLanded_of_terminal a (Or.inr h), hne]

theorem Single.elig_false_of_terminal_s (a : Airplane) (hinv : planeInv a)
    (hterm : a.landed = true ∨ a.crashed = true) : elig a = false := by
  rcases hterm with h | h
  · simp [elig, tickUnlessLanded_of_terminal a (Or.inl h), h]
  · obtain ⟨_, _, _, h4, _, h6, _⟩ := hinv
    obtain ⟨hf, hlg, hld⟩ := h6 h
    have hne : ¬((80 : Int) ≤ a.fuel) := by omega
    simp [elig, tickUnlessLanded_of_terminal a (Or.inr h), hne]

/-- Facts about the admission/preemption target produced by `bestBy`:
it sits at its index in the post-tick list, is invariant-satisfying, not
crashed, and has enough fuel for its remaining descent (multi-runway
eligibility also makes it non-landing; single-runway eligibility makes it
non-landed). -/
theorem Multi.bestBy_target (ps : List Airplane) (hAll : AllInv ps) (i : Nat) (p : Airplane)
    (h : bestBy elig 0 ps = some (i, p)) :
    (ps.map tickUnlessLanded)[i]? = some p ∧ planeInv p ∧ p.crashed = false ∧
      p.landing = false ∧ p.altitude ≤ p.fuel ∧
      ∃ a, ps[i]? = some a ∧ elig a = true ∧ p = tickUnlessLanded a := by
  obtain ⟨m, a, hma, hel, hk, hp⟩ := bestBy_sound elig ps 0 i p h
  have hm : m = i := by omega
  subst hm
  have hai : planeInv a := hAll a (List.getElem?_mem hma)
  have hfacts := elig_facts a hai hel
  have hpin : planeInv p := hp ▸ planeInv_tickUnlessLanded a hai
  refine ⟨?_, hpin, hp ▸ hfacts.1, hp ▸ hfacts.2.1, hp ▸ hfacts.2.2, a, hma, hel, hp⟩
  rw [List.getElem?_map, hma, hp]
  rfl

theorem Single.bestBy_target_s (ps : List Airplane) (hAll : AllInv ps) (i : Nat) (p : Airplane)
    (h : bestBy elig 0 ps = some (i, p)) :
    (ps.map tickUnlessLanded)[i]? = some p ∧ planeInv p ∧ p.crashed = false ∧
      p.landed = false ∧ p.altitude ≤ p.fuel ∧
      ∃ a, ps[i]? = some a ∧ elig a = true ∧ p = tickUnlessLanded a := by
  obtain ⟨m, a, hma, hel, hk, hp⟩ := bestBy_sound elig ps 0 i p h
  have hm : m = i := by omega
  subst hm
  have hai : planeInv a := hAll a (List.getElem?_mem hma)
  have hfacts := elig_facts_s a hai hel
  have hpin : planeInv p := hp ▸ planeInv_tickUnlessLanded a hai
  refine ⟨?_, hpin, hp ▸ hfacts.1, hp ▸ hfacts.2.1, hp ▸ hfacts.2.2, a, hma, hel, hp⟩
  rw [List.getElem?_map, hma, hp]
  rfl

theorem Multi.frameScan_planes (s : SimState) (d : Option Nat) :
    (frameScan s d).planes = (spawnFrame s d).airplanes.map tickUnlessLanded :=
  scan0_planes _ _

theorem Multi.frameScan_lowest (s : SimState) (d : Option Nat) :
    (frameScan s d).lowest = bestBy elig 0 (spawnFrame s d).airplanes :=
  scan0_lowest _ _

theorem Multi.frameScan_runways (s : SimState) (d : Option Nat) :
    (frameScan s d).runways =
      6 - (if s.control = true then 0
        else ((landIdxs 0 (spawnFrame s d).airplanes).length : Int)) :=
  scan0_runways _ _

theorem Multi.frameScan_planeLanding (s : SimState) (d : Option Nat) :
    (frameScan s d).planeLanding = !(landIdxs 0 (spawnFrame s d).airplanes).isEmpty :=
  scan0_planeLanding _ _

theorem Multi.frameScan_landingIdxs (s : SimState) (d : Option Nat) :
    (frameScan s d).landingIdxs = landIdxs 0 (spawnFrame s d).airplanes :=
  scan0_landingIdxs _ _

theorem Multi.tick_airplanes (s : SimState) (d : Option Nat) :
    (tick s d).airplanes =
      (if s.control = true then
        if (frameScan s d).planeLanding = true then (frameScan s d).planes
        else startPlaneLanding (frameScan s d).planes (frameScan s d).lowest
      else
        if (frameScan s d).runways ≠ 0 then
          startPlaneLanding (frameScan s d).planes (frameScan s d).lowest
        else
          prioritizeLandingOtherPlane (frameScan s d).planes (frameScan s d).lowest
            (frameScan s d).landingIdxs) := by
  cases d <;> rfl

theorem activeLandingCount_map_le (planes : List Airplane) :
    activeLandingCount (planes.map tickUnlessLanded) ≤ activeLandingCount planes := by
  unfold activeLandingCount
  rw [List.countP_map]
  exact List.countP_mono_left (fun a _ h => tickUnlessLanded_active_mono a h)

theorem activeLandingCount_map_eq_landIdxs (ps : List Airplane) :
    activeLandingCount (ps.map tickUnlessLanded) = (Multi.landIdxs 0 ps).length := by
  rw [Multi.landIdxs_length ps 0]
  unfold activeLandingCount
  rw [List.countP_map]
  rfl

theorem Multi.startPlaneLanding_active_le (planes : List Airplane)
    (low : Option (Nat × Airplane)) :
    activeLandingCount (startPlaneLanding planes low)
      ≤ activeLandingCount planes + 1 := by
  cases low with
  | none =>
      simp only [startPlaneLanding]
      omega
  | some x =>
      simp only [startPlaneLanding]
      split_ifs with hg
      · simpa [setLanding] using countP_listModify_le
          (fun a => a.landing && !a.landed) (fun a => { a with landing := true }) planes x.1
      · omega

theorem Multi.startPlaneLanding_AllInv (planes : List Airplane)
    (low : Option (Nat × Airplane)) (hAll : AllInv planes)
    (hfacts : ∀ i p, low = some (i, p) →
      planes[i]? = some p ∧ p.crashed = false ∧ p.altitude ≤ p.fuel) :
    AllInv (startPlaneLanding planes low) := by
  cases low with
  | none => exact hAll
  | some x =>
      simp only [startPlaneLanding]
      split_ifs with hg
      · unfold setLanding
        refine AllInv_listModify planes _ x.1 hAll ?_
        intro p hp
        obtain ⟨hq, hc, hf⟩ := hfacts x.1 x.2 rfl
        rw [hp] at hq
        injection hq with hq
        subst hq
        exact planeInv_set_landing_true _ (hAll _ (List.getElem?_mem hp)) hc hf
      · exact hAll

/-- Simulation-level invariant of the multi-runway variant: all planes
satisfy `planeInv`, and the number of active landers (landing and not
landed) is at most 1 under control, at most 6 under the test policy. -/
def Multi.SimInv (s : SimState) : Prop :=
  AllInv s.airplanes ∧
    activeLandingCount s.airplanes ≤ (if s.control = true then 1 else 6)

theorem Multi.tick_SimInv (s : SimState) (d : Option Nat) (h : SimInv s) :
    SimInv (tick s d) := by
  obtain ⟨hAll, hCnt⟩ := h
  have hAll1 : AllInv (spawnFrame s d).airplanes := spawnFrame_AllInv s d hAll
  have hCnt1 : activeLandingCount (spawnFrame s d).airplanes
      ≤ (if s.control = true then 1 else 6) := by
    unfold activeLandingCount at *
    rw [spawnFrame_countP s d _ (fun n r => by simp [Airplane.init])]
    exact hCnt
  have hAll2 : AllInv (frameScan s d).planes := by
    rw [frameScan_planes]; exact AllInv_map_tick _ hAll1
  have hCnt2 : activeLandingCount (frameScan s d).planes
      ≤ (if s.control = true then 1 else 6) := by
    rw [frameScan_planes]
    exact le_trans (activeLandingCount_map_le _) hCnt1
  have hCntIdx : activeLandingCount (frameScan s d).planes
      = (landIdxs 0 (spawnFrame s d).airplanes).length := by
    rw [frameScan_planes]
    exact activeLandingCount_map_eq_landIdxs _
  have hfacts : ∀ i p, (frameScan s d).lowest = some (i, p) →
      (frameScan s d).planes[i]? = some p ∧ p.crashed = false ∧ p.altitude ≤ p.fuel := by
    intro i p hlow
    rw [frameScan_lowest] at hlow
    obtain ⟨hg, _, hc, _, hf, _⟩ := bestBy_target _ hAll1 i p hlow
    exact ⟨by rw [frameScan_planes]; exact hg, hc, hf⟩
  have hAdmAll : AllInv (startPlaneLanding (frameScan s d).planes (frameScan s d).lowest) :=
    startPlaneLanding_AllInv _ _ hAll2 hfacts
  constructor
  · rw [tick_airplanes s d]
    by_cases hcon : s.control = true
    · rw [if_pos hcon]
      by_cases hpl : (frameScan s d).planeLanding = true
      · rw [if_pos hpl]; exact hAll2
      · rw [if_neg hpl]; exact hAdmAll
    · rw [if_neg hcon]
      by_cases hrw : (frameScan s d).runways ≠ 0
      · rw [if_pos hrw]; exact hAdmAll
      · rw [if_neg hrw, prioritize_eq]; exact hAll2
  · rw [tick_airplanes s d, tick_control s d]
    by_cases hcon : s.control = true
    · rw [if_pos hcon, if_pos hcon]
      rw [if_pos hcon] at hCnt2
      by_cases hpl : (frameScan s d).planeLanding = true
      · rw [if_pos hpl]
        exact hCnt2
      · rw [if_neg hpl]
        have hempty : (landIdxs 0 (spawnFrame s d).airplanes).isEmpty = true := by
          have hp := frameScan_planeLanding s d
          rw [hp] at hpl
          simpa using hpl
        have hnil : landIdxs 0 (spawnFrame s d).airplanes = [] := by
          cases hl : landIdxs 0 (spawnFrame s d).airplanes with
          | nil => rfl
          | cons y ys => rw [hl] at hempty; simp at hempty
        have hzero : activeLandingCount (frameScan s d).planes = 0 := by
          rw [hCntIdx, hnil]
          rfl
        have hb := startPlaneLanding_active_le (frameScan s d).planes (frameScan s d).lowest
        omega
    · have hcon' : s.control = false := by simpa using hcon
      rw [if_neg hcon, if_neg hcon]
      rw [if_neg hcon] at hCnt2
      by_cases hrw : (frameScan s d).runways ≠ 0
      · rw [if_pos hrw]
        have hne : (landIdxs 0 (spawnFrame s d).airplanes).length ≠ 6 := by
          intro h6
          rw [frameScan_runways, hcon'] at hrw
          simp only [Bool.false_eq_true, if_false, h6] at hrw
          omega
        have hle6 : activeLandingCount (frameScan s d).planes ≤ 6 := hCnt2
        have hb := startPlaneLanding_active_le (frameScan s d).planes (frameScan s d).lowest
        omega
      · rw [if_neg hrw, prioritize_eq]
        exact hCnt2

theorem Multi.runFrom_SimInv (s : SimState) (draws : List (Option Nat)) (h : SimInv s) :
    SimInv (runFrom s draws) :=
  foldl_preserve tick SimInv tick_SimInv draws s h

theorem Multi.construct_SimInv (n : Nat) (c : Bool) : SimInv (Simulation.construct n c) := by
  constructor
  · intro a ha; simp [Simulation.construct] at ha
  · have h0 : activeLandingCount (Simulation.construct n c).airplanes = 0 := rfl
    rw [h0]
    exact Nat.zero_le _

theorem Single.frameScan_planes_s (s : SimState) (d : Option Nat) :
    (frameScan s d).planes = (spawnFrame s d).airplanes.map tickUnlessLanded :=
  scan0_planes_s _

theorem Single.frameScan_lowest_s (s : SimState) (d : Option Nat) :
    (frameScan s d).lowest = bestBy elig 0 (spawnFrame s d).airplanes :=
  scan0_lowest_s _

theorem Single.frameScan_planeLanding_s (s : SimState) (d : Option Nat) :
    (frameScan s d).planeLanding =
      (spawnFrame s d).airplanes.any (fun a => (tickUnlessLanded a).landing) :=
  scan0_planeLanding_s _

theorem Single.frameScan_landingPlane (s : SimState) (d : Option Nat) :
    (frameScan s d).landingPlane = lastLand 0 (spawnFrame s d).airplanes :=
  scan0_landingPlane _

theorem Single.tick_airplanes_s (s : SimState) (d : Option Nat) :
    (tick s d).airplanes =
      (match (frameScan s d).landingPlane with
       | none =>
           startPlaneLanding (frameScan s d).planeLanding (frameScan s d).planes
             (frameScan s d).lowest
       | some x =>
           if x.2.planeNumber ≠ 0 ∧ s.control = false then
             prioritizeLandingOtherPlane
               (startPlaneLanding (frameScan s d).planeLanding (frameScan s d).planes
                 (frameScan s d).lowest)
               (frameScan s d).lowest x.1 x.2
           else
             startPlaneLanding (frameScan s d).planeLanding (frameScan s d).planes
               (frameScan s d).lowest) := by
  cases d <;> rfl

theorem Single.tick_airplanes_none (s : SimState) (d : Option Nat)
    (h : (frameScan s d).landingPlane = none) :
    (tick s d).airplanes =
      startPlaneLanding (frameScan s d).planeLanding (frameScan s d).planes
        (frameScan s d).lowest := by
  rw [tick_airplanes_s s d, h]

theorem Single.tick_airplanes_some (s : SimState) (d : Option Nat) (j : Nat) (q : Airplane)
    (h : (frameScan s d).landingPlane = some (j, q)) :
    (tick s d).airplanes =
      (if q.planeNumber ≠ 0 ∧ s.control = false then
        prioritizeLandingOtherPlane
          (startPlaneLanding (frameScan s d).planeLanding (frameScan s d).planes
            (frameScan s d).lowest)
          (frameScan s d).lowest j q
      else
        startPlaneLanding (frameScan s d).planeLanding (frameScan s d).planes
          (frameScan s d).lowest) := by
  rw [tick_airplanes_s s d, h]

theorem Single.prioritize_none (planes : List Airplane) (j : Nat) (q : Airplane) :
    prioritizeLandingOtherPlane planes none j q = planes := rfl

theorem Single.prioritize_some (planes : List Airplane) (i : Nat) (p : Airplane)
    (j : Nat) (q : Airplane) :
    prioritizeLandingOtherPlane planes (some (i, p)) j q =
      (if p.fuel < q.fuel ∧ 81 + q.altitude ≤ q.fuel then
        setLanding (setLanding planes j false) i true
      else planes) := rfl

theorem Single.startPlaneLanding_of_true (planes : List Airplane)
    (low : Option (Nat × Airplane)) : startPlaneLanding true planes low = planes := by
  cases low with
  | none => rfl
  | some x =>
      simp only [startPlaneLanding]
      rw [if_neg]
      simp

theorem Single.landingPlane_some_planeLanding (s : SimState) (d : Option Nat)
    (j : Nat) (q : Airplane) (h : (frameScan s d).landingPlane = some (j, q)) :
    (frameScan s d).planeLanding = true := by
  rw [frameScan_landingPlane] at h
  rw [frameScan_planeLanding_s]
  by_cases hany :
      (spawnFrame s d).airplanes.any (fun a => (tickUnlessLanded a).landing) = true
  · exact hany
  · exfalso
    have hnone := (lastLand_none_iff (spawnFrame s d).airplanes 0).mpr (by simpa using hany)
    rw [hnone] at h
    cases h

theorem Single.landingPlane_target (s : SimState) (d : Option Nat) (j : Nat) (q : Airplane)
    (h : (frameScan s d).landingPlane = some (j, q)) :
    (frameScan s d).planes[j]? = some q ∧ q.landing = true ∧
      ∃ a, (spawnFrame s d).airplanes[j]? = some a ∧ q = tickUnlessLanded a := by
  rw [frameScan_landingPlane] at h
  obtain ⟨m, a, hma, hj, hq, hl⟩ := lastLand_sound (spawnFrame s d).airplanes 0 j q h
  have hmj : m = j := by omega
  subst hmj
  refine ⟨?_, hl, a, hma, hq⟩
  rw [frameScan_planes_s, List.getElem?_map, hma, hq]
  rfl

theorem landingTrueCount_map_le (planes : List Airplane) :
    landingTrueCount (planes.map tickUnlessLanded) ≤ landingTrueCount planes := by
  unfold landingTrueCount
  rw [List.countP_map]
  exact List.countP_mono_left (fun a _ h => tickUnlessLanded_landing_mono a h)

theorem one_le_countP_of_getElem (q : α → Bool) (l : List α) (i : Nat) (a : α)
    (h : l[i]? = some a) (hq : q a = true) : 1 ≤ l.countP q := by
  have hpos : 0 < l.countP q := List.countP_pos.mpr ⟨a, List.getElem?_mem h, hq⟩
  omega

theorem two_le_countP (q : α → Bool) :
    ∀ (l : List α) (i j : Nat) (a b : α), i ≠ j → l[i]? = some a → l[j]? = some b →
      q a = true → q b = true → 2 ≤ l.countP q := by
  intro l
  induction l with
  | nil => intro i j a b _ h; simp at h
  | cons x rest ih =>
      intro i j a b hne hi hj hqa hqb
      rw [List.countP_cons]
      cases i with
      | zero =>
          simp only [List.getElem?_cons_zero, Option.some_inj] at hi
          cases j with
          | zero => exact absurd rfl hne
          | succ j' =>
              simp only [List.getElem?_cons_succ] at hj
              have h1 := one_le_countP_of_getElem q rest j' b hj hqb
              have hqx : q x = true := by rw [hi]; exact hqa
              simp only [hqx, if_true]
              omega
      | succ i' =>
          simp only [List.getElem?_cons_succ] at hi
          cases j with
          | zero =>
              simp only [List.getElem?_cons_zero, Option.some_inj] at hj
              have h1 := one_le_countP_of_getElem q rest i' a hi hqa
              have hqx : q x = true := by rw [hj]; exact hqb
              simp only [hqx, if_true]
              omega
          | succ j' =>
              simp only [List.getElem?_cons_succ] at hj
              have := ih i' j' a b (by omega) hi hj hqa hqb
              omega

theorem forall_mem_listModify {P : α → Prop} (l : List α) (f : α → α) (i : Nat)
    (h : ∀ b ∈ l, P b) (hf : ∀ p, l[i]? = some p → P (f p)) :
    ∀ b ∈ listModify f i l, P b := by
  intro b hb
  rw [List.mem_iff_getElem?] at hb
  obtain ⟨j, hj⟩ := hb
  rw [listModify_getElem? f l i j] at hj
  by_cases hij : j = i
  · rw [if_pos hij] at hj
    cases hp : l[j]? with
    | none => rw [hp] at hj; simp at hj
    | some p =>
        rw [hp] at hj
        simp only [Option.map_some', Option.some_inj] at hj
        rw [← hj]
        exact hf p (hij ▸ hp)
  · rw [if_neg hij] at hj
    exact h b (List.getElem?_mem hj)

/-- Simulation-level invariant of the single-runway variant: all planes
satisfy `planeInv`, at most one plane has `landing = true`, and a landing
plane is never landed. -/
def Single.SimInv (s : SimState) : Prop :=
  AllInv s.airplanes ∧ landingTrueCount s.airplanes ≤ 1 ∧
    (∀ a ∈ s.airplanes, a.landing = true → a.landed = false)

theorem Single.startPlaneLanding_AllInv_s (pl : Bool) (planes : List Airplane)
    (low : Option (Nat × Airplane)) (hAll : AllInv planes)
    (hfacts : ∀ i p, low = some (i, p) →
      planes[i]? = some p ∧ p.crashed = false ∧ p.altitude ≤ p.fuel) :
    AllInv (startPlaneLanding pl planes low) := by
  cases low with
  | none => exact hAll
  | some x =>
      simp only [startPlaneLanding]
      split_ifs with hg
      · unfold setLanding
        refine AllInv_listModify planes _ x.1 hAll ?_
        intro p hp
        obtain ⟨hq, hc, hf⟩ := hfacts x.1 x.2 rfl
        rw [hp] at hq
        injection hq with hq
        subst hq
        exact planeInv_set_landing_true _ (hAll _ (List.getElem?_mem hp)) hc hf
      · exact hAll

theorem Single.startPlaneLanding_count_le (pl : Bool) (planes : List Airplane)
    (low : Option (Nat × Airplane)) :
    landingTrueCount (startPlaneLanding pl planes low) ≤ landingTrueCount planes + 1 := by
  cases low with
  | none =>
      simp only [startPlaneLanding]
      omega
  | some x =>
      simp only [startPlaneLanding]
      split_ifs with hg
      · simpa [setLanding] using countP_listModify_le
          (fun a => a.landing) (fun a => { a with landing := true }) planes x.1
      · omega

theorem Single.startPlaneLanding_LZ (pl : Bool) (planes : List Airplane)
    (low : Option (Nat × Airplane))
    (hLZ : ∀ a ∈ planes, a.landing = true → a.landed = false)
    (hfacts : ∀ i p, low = some (i, p) → planes[i]? = some p ∧ p.landed = false) :
    ∀ a ∈ startPlaneLanding pl planes low, a.landing = true → a.landed = false := by
  cases low with
  | none => exact hLZ
  | some x =>
      simp only [startPlaneLanding]
      split_ifs with hg
      · unfold setLanding
        refine forall_mem_listModify planes _ x.1 hLZ ?_
        intro p hp
        obtain ⟨hq, hld⟩ := hfacts x.1 x.2 rfl
        rw [hp] at hq
        injection hq with hq
        subst hq
        intro _
        exact hld
      · exact hLZ

theorem Single.tick_SimInv_s (s : SimState) (d : Option Nat) (h : SimInv s) :
    SimInv (tick s d) := by
  obtain ⟨hAll, hCnt, hLZ⟩ := h
  have hAll1 : AllInv (spawnFrame s d).airplanes := spawnFrame_AllInv s d hAll
  have hCnt1 : landingTrueCount (spawnFrame s d).airplanes ≤ 1 := by
    unfold landingTrueCount at *
    rw [spawnFrame_countP s d _ (fun n r => by simp [Airplane.init])]
    exact hCnt
  have hLZ1 : ∀ a ∈ (spawnFrame s d).airplanes, a.landing = true → a.landed = false := by
    cases d with
    | none => exact hLZ
    | some r =>
        intro a ha
        rcases List.mem_append.mp ha with ha | ha
        · exact hLZ a ha
        · rw [List.mem_singleton] at ha
          subst ha
          intro hl
          simp [Airplane.init] at hl
  have hAll2 : AllInv (frameScan s d).planes := by
    rw [frameScan_planes_s]; exact AllInv_map_tick _ hAll1
  have hCnt2 : landingTrueCount (frameScan s d).planes ≤ 1 := by
    rw [frameScan_planes_s]; exact le_trans (landingTrueCount_map_le _) hCnt1
  have hLZ2 : ∀ a ∈ (frameScan s d).planes, a.landing = true → a.landed = false := by
    rw [frameScan_planes_s]
    intro b hb
    rw [List.mem_map] at hb
    obtain ⟨a, ha, rfl⟩ := hb
    intro hbl
    by_cases hland : a.landed = true
    · rw [tickUnlessLanded, if_pos (by simp [hland])] at hbl ⊢
      exact hLZ1 a ha hbl
    · have hland' : a.landed = false := by simpa using hland
      rw [tickUnlessLanded, if_neg (by simp [hland])] at hbl ⊢
      exact tick_landing_not_landed a hland' hbl
  have hlowfacts : ∀ i p, (frameScan s d).lowest = some (i, p) →
      (frameScan s d).planes[i]? = some p ∧ planeInv p ∧ p.crashed = false ∧
        p.landed = false ∧ p.altitude ≤ p.fuel := by
    intro i p hlow
    rw [frameScan_lowest_s] at hlow
    obtain ⟨hg, hpi, hc, hld, hf, _⟩ := bestBy_target_s _ hAll1 i p hlow
    exact ⟨by rw [frameScan_planes_s]; exact hg, hpi, hc, hld, hf⟩
  have hAdmAll : AllInv (startPlaneLanding (frameScan s d).planeLanding
      (frameScan s d).planes (frameScan s d).lowest) :=
    startPlaneLanding_AllInv_s _ _ _ hAll2
      (fun i p hl => ⟨(hlowfacts i p hl).1, (hlowfacts i p hl).2.2.1,
        (hlowfacts i p hl).2.2.2.2⟩)
  have hAdmLZ : ∀ a ∈ startPlaneLanding (frameScan s d).planeLanding
      (frameScan s d).planes (frameScan s d).lowest,
      a.landing = true → a.landed = false :=
    startPlaneLanding_LZ _ _ _ hLZ2
      (fun i p hl => ⟨(hlowfacts i p hl).1, (hlowfacts i p hl).2.2.2.1⟩)
  have hAdmCnt : landingTrueCount (startPlaneLanding (frameScan s d).planeLanding
      (frameScan s d).planes (frameScan s d).lowest) ≤ 1 := by
    by_cases hpl : (frameScan s d).planeLanding = true
    · rw [hpl, startPlaneLanding_of_true]
      exact hCnt2
    · have hany : (spawnFrame s d).airplanes.any
          (fun a => (tickUnlessLanded a).landing) = false := by
        have hfp := frameScan_planeLanding_s s d
        rw [hfp] at hpl
        simpa using hpl
      have hzero : landingTrueCount (frameScan s d).planes = 0 := by
        rw [frameScan_planes_s]
        unfold landingTrueCount
        rw [List.countP_map, List.countP_eq_zero]
        intro a ha
        have := List.any_eq_false.mp hany a ha
        simpa using this
      have hb := startPlaneLanding_count_le (frameScan s d).planeLanding
        (frameScan s d).planes (frameScan s d).lowest
      omega
  suffices hres : AllInv (tick s d).airplanes ∧
      landingTrueCount (tick s d).airplanes ≤ 1 ∧
      (∀ a ∈ (tick s d).airplanes, a.landing = true → a.landed = false) by
    exact hres
  cases hlp : (frameScan s d).landingPlane with
  | none =>
      rw [tick_airplanes_none s d hlp]
      exact ⟨hAdmAll, hAdmCnt, hAdmLZ⟩
  | some x =>
      obtain ⟨j, q⟩ := x
      rw [tick_airplanes_some s d j q hlp]
      have hpl := landingPlane_some_planeLanding s d j q hlp
      have hp1 : startPlaneLanding (frameScan s d).planeLanding (frameScan s d).planes
          (frameScan s d).lowest = (frameScan s d).planes := by
        rw [hpl, startPlaneLanding_of_true]
      split_ifs with hg
      · rw [hp1]
        obtain ⟨hqj, hql, _⟩ := landingPlane_target s d j q hlp
        cases hlow : (frameScan s d).lowest with
        | none =>
            rw [prioritize_none]
            exact ⟨hAll2, hCnt2, hLZ2⟩
        | some lo =>
            obtain ⟨i, p⟩ := lo
            obtain ⟨hpi, hpinv, hpc, hpld, hpf⟩ := hlowfacts i p hlow
            rw [prioritize_some]
            split_ifs with hfire
            · obtain ⟨hlt, hmargin⟩ := hfire
              have hij : i ≠ j := by
                intro he
                rw [he, hqj] at hpi
                injection hpi with hpi
                rw [hpi] at hlt
                omega
              have hinner_getElem : (setLanding (frameScan s d).planes j false)[i]?
                  = some p := by
                unfold setLanding
                rw [listModify_getElem?, if_neg hij]
                exact hpi
              have hinnerAll : AllInv (setLanding (frameScan s d).planes j false) := by
                unfold setLanding
                refine AllInv_listModify _ _ j hAll2 ?_
                intro p' hp'
                exact planeInv_set_landing_false p' (hAll2 p' (List.getElem?_mem hp'))
              have hone : landingTrueCount (frameScan s d).planes = 1 := by
                have h1 := one_le_countP_of_getElem (fun a => a.landing)
                  (frameScan s d).planes j q hqj hql
                unfold landingTrueCount at hCnt2
                unfold landingTrueCount
                omega
              have hinnerCnt : landingTrueCount (setLanding (frameScan s d).planes j false)
                  = 0 := by
                have hx := countP_listModify (fun a => a.landing)
                  (fun a => { a with landing := false }) (frameScan s d).planes j q hqj
                have hx2 : ({ q with landing := false } : Airplane).landing = false := rfl
                simp only [hql, if_true, hx2, Bool.false_eq_true, if_false] at hx
                unfold landingTrueCount at hone
                unfold landingTrueCount setLanding
                omega
              refine ⟨?_, ?_, ?_⟩
              · unfold setLanding
                refine AllInv_listModify _ _ i hinnerAll ?_
                intro p' hp'
                rw [show (setLanding (frameScan s d).planes j false) = listModify
                  (fun a => { a with landing := false }) j (frameScan s d).planes
                  from rfl] at hinner_getElem
                rw [hp'] at hinner_getElem
                injection hinner_getElem with he
                rw [he]
                exact planeInv_set_landing_true p hpinv hpc hpf
              · have hb := countP_listModify_le (fun a => a.landing)
                  (fun a => { a with landing := true })
                  (setLanding (frameScan s d).planes j false) i
                unfold landingTrueCount setLanding at *
                omega
              · unfold setLanding
                refine forall_mem_listModify _ _ i ?_ ?_
                · refine forall_mem_listModify _ _ j hLZ2 ?_
                  intro p' _
                  intro hx
                  simp at hx
                · intro p' hp'
                  rw [show (setLanding (frameScan s d).planes j false) = listModify
                    (fun a => { a with landing := false }) j (frameScan s d).planes
                    from rfl] at hinner_getElem
                  rw [hp'] at hinner_getElem
                  injection hinner_getElem with he
                  rw [he]
                  intro _
                  exact hpld
            · exact ⟨hAll2, hCnt2, hLZ2⟩
      · rw [hp1]
        exact ⟨hAll2, hCnt2, hLZ2⟩

theorem Single.runFrom_SimInv_s (s : SimState) (draws : List (Option Nat)) (h : SimInv s) :
    SimInv (runFrom s draws) :=
  foldl_preserve tick SimInv tick_SimInv_s draws s h

theorem Single.construct_SimInv_s (n : Nat) (c : Bool) : SimInv (Simulation.construct n c) := by
  refine ⟨?_, ?_, ?_⟩
  · intro a ha; simp [Simulation.construct] at ha
  · have h0 : landingTrueCount (Simulation.construct n c).airplanes = 0 := rfl
    rw [h0]
    omega
  · intro a ha; simp [Simulation.construct] at ha

theorem Multi.tick_frozen (s : SimState) (d : Option Nat) (k : Nat) (a : Airplane)
    (hAll : AllInv s.airplanes) (hk : s.airplanes[k]? = some a)
    (hterm : a.landed = true ∨ a.crashed = true) :
    (tick s d).airplanes[k]? = some a := by
  have hinv : planeInv a := hAll a (List.getElem?_mem hk)
  have hk1 : (spawnFrame s d).airplanes[k]? = some a := spawnFrame_getElem? s d k a hk
  have hk2 : (frameScan s d).planes[k]? = some a := by
    rw [frameScan_planes, List.getElem?_map, hk1]
    simp [tickUnlessLanded_of_terminal a hterm]
  have hstart : (startPlaneLanding (frameScan s d).planes (frameScan s d).lowest)[k]?
      = some a := by
    cases hlow : (frameScan s d).lowest with
    | none => simpa [startPlaneLanding] using hk2
    | some x =>
        obtain ⟨i0, p0⟩ := x
        simp only [startPlaneLanding]
        split_ifs with hg
        · have hbest : bestBy elig 0 (spawnFrame s d).airplanes = some (i0, p0) := by
            rw [← frameScan_lowest s d]
            exact hlow
          obtain ⟨m, b, hmb, hbe, hkm, hb⟩ := bestBy_sound elig _ 0 i0 p0 hbest
          have hmb2 : (spawnFrame s d).airplanes[i0]? = some b := by
            have hm : m = i0 := by omega
            rwa [hm] at hmb
          have hne : i0 ≠ k := by
            intro he
            rw [he, hk1] at hmb2
            injection hmb2 with hmb2
            subst hmb2
            rw [elig_false_of_terminal a hinv hterm] at hbe
            cases hbe
          unfold setLanding
          rw [listModify_getElem?, if_neg (by omega)]
          exact hk2
        · exact hk2
  rw [tick_airplanes s d]
  by_cases hcon : s.control = true
  · rw [if_pos hcon]
    by_cases hpl : (frameScan s d).planeLanding = true
    · rw [if_pos hpl]; exact hk2
    · rw [if_neg hpl]; exact hstart
  · rw [if_neg hcon]
    by_cases hrw : (frameScan s d).runways ≠ 0
    · rw [if_pos hrw]; exact hstart
    · rw [if_neg hrw, prioritize_eq]; exact hk2

theorem Single.tick_frozen_s (s : SimState) (d : Option Nat) (k : Nat) (a : Airplane)
    (hAll : AllInv s.airplanes) (hk : s.airplanes[k]? = some a)
    (hterm : a.landed = true ∨ a.crashed = true)
    (hlz : a.landing = true → a.landed = false) :
    (tick s d).airplanes[k]? = some a := by
  have hinv : planeInv a := hAll a (List.getElem?_mem hk)
  have hk1 : (spawnFrame s d).airplanes[k]? = some a := spawnFrame_getElem? s d k a hk
  have hk2 : (frameScan s d).planes[k]? = some a := by
    rw [frameScan_planes_s, List.getElem?_map, hk1]
    simp [tickUnlessLanded_of_terminal a hterm]
  have halnd : a.landing = false := by
    rcases hterm with h | h
    · by_cases hl : a.landing = true
      · rw [hlz hl] at h; cases h
      · simpa using hl
    · exact (hinv.2.2.2.2.2.1 h).2.1
  have hlowne : ∀ i p, (frameScan s d).lowest = some (i, p) → i ≠ k := by
    intro i p hlow he
    rw [frameScan_lowest_s] at hlow
    obtain ⟨m, b, hmb, hbe, hkm, hb⟩ := bestBy_sound elig _ 0 i p hlow
    have hmb2 : (spawnFrame s d).airplanes[i]? = some b := by
      have hm : m = i := by omega
      rwa [hm] at hmb
    rw [he, hk1] at hmb2
    injection hmb2 with hmb2
    subst hmb2
    rw [elig_false_of_terminal_s a hinv hterm] at hbe
    cases hbe
  have hstart : (startPlaneLanding (frameScan s d).planeLanding (frameScan s d).planes
      (frameScan s d).lowest)[k]? = some a := by
    cases hlow : (frameScan s d).lowest with
    | none => simpa [startPlaneLanding] using hk2
    | some x =>
        simp only [startPlaneLanding]
        split_ifs with hg
        · unfold setLanding
          rw [listModify_getElem?,
            if_neg (by have := hlowne x.1 x.2 (by rw [hlow]); omega)]
          exact hk2
        · exact hk2
  cases hlp : (frameScan s d).landingPlane with
  | none =>
      rw [tick_airplanes_none s d hlp]
      exact hstart
  | some x =>
      obtain ⟨j, q⟩ := x
      rw [tick_airplanes_some s d j q hlp]
      have hpl := landingPlane_some_planeLanding s d j q hlp
      have hp1 : startPlaneLanding (frameScan s d).planeLanding (frameScan s d).planes
          (frameScan s d).lowest = (frameScan s d).planes := by
        rw [hpl, startPlaneLanding_of_true]
      have hjne : j ≠ k := by
        intro he
        obtain ⟨hqj, hql, _⟩ := landingPlane_target s d j q hlp
        rw [he, hk2] at hqj
        injection hqj with hqj
        subst hqj
        rw [halnd] at hql
        cases hql
      split_ifs with hg
      · rw [hp1]
        cases hlow : (frameScan s d).lowest with
        | none =>
            rw [prioritize_none]
            exact hk2
        | some lo =>
            obtain ⟨i, p⟩ := lo
            have hine := hlowne i p hlow
            rw [prioritize_some]
            split_ifs with hfire
            · unfold setLanding
              rw [listModify_getElem?, if_neg (by omega),
                listModify_getElem?, if_neg (by omega)]
              exact hk2
            · exact hk2
      · rw [hp1]
        exact hk2

theorem Multi.runFrom_frozen (s : SimState) (draws : List (Option Nat)) (k : Nat)
    (a : Airplane) (hinv : SimInv s) (hk : s.airplanes[k]? = some a)
    (hterm : a.landed = true ∨ a.crashed = true) :
    (runFrom s draws).airplanes[k]? = some a := by
  have h := foldl_preserve tick (fun st => SimInv st ∧ st.airplanes[k]? = some a)
    (fun st d hh => ⟨tick_SimInv st d hh.1, tick_frozen st d k a hh.1.1 hh.2 hterm⟩)
    draws s ⟨hinv, hk⟩
  exact h.2

theorem Single.runFrom_frozen_s (s : SimState) (draws : List (Option Nat)) (k : Nat)
    (a : Airplane) (hinv : SimInv s) (hk : s.airplanes[k]? = some a)
    (hterm : a.landed = true ∨ a.crashed = true)
    (hlz : a.landing = true → a.landed = false) :
    (runFrom s draws).airplanes[k]? = some a := by
  have h := foldl_preserve tick (fun st => SimInv st ∧ st.airplanes[k]? = some a)
    (fun st d hh => ⟨tick_SimInv_s st d hh.1, tick_frozen_s st d k a hh.1.1 hh.2 hterm hlz⟩)
    draws s ⟨hinv, hk⟩
  exact h.2

/-!
## Claim theorems
-/

set_option maxRecDepth 100000

/-- A concrete multi-runway test-policy frame on which the spec's
preemption rule should fire: six planes landing (all runway slots taken),
among them plane 6 with post-tick fuel 399 and altitude 10 (the highest
fuel, with `399 ≥ 81 + 10`), and a waiting candidate, plane 7, with
post-tick fuel 99 (`99 < 399`, `99 ≥ 80`). -/
def c1State : SimState :=
  { airplanes :=
      [⟨1, 301, 1, false, 51, true, false⟩, ⟨2, 301, 1, false, 51, true, false⟩,
       ⟨3, 301, 1, false, 51, true, false⟩, ⟨4, 301, 1, false, 51, true, false⟩,
       ⟨5, 301, 1, false, 51, true, false⟩, ⟨6, 400, 1, false, 11, true, false⟩,
       ⟨7, 100, 1, false, 80, false, false⟩]
    frameNumber := 0
    framerate := 60
    runNumber := 1
    control := false }

/-- C1.  The multi-runway engine never performs the preemption the claim
describes: on `c1State` no runway slot is available (`runways = 0` after
the scan) and the best waiting candidate exists (plane 7, post-tick fuel
99), plane 6 is the unique highest-fuel lander with `fuel ≥ 81 + altitude`
and the candidate's fuel is strictly lower — yet the frame leaves every
`landing` flag unchanged, because the most-fueled scan in
`prioritizeLandingOtherPlane` compares `mostFueledPlane.fuel >
landingPlanes[i].fuel` against a `-Infinity` sentinel and therefore never
selects any plane (`mostFueledScan` returns `none`). -/
theorem c1_multi_preemption_never_fires :
    (Multi.tick c1State none).airplanes =
      [⟨1, 300, 1, false, 50, true, false⟩, ⟨2, 300, 1, false, 50, true, false⟩,
       ⟨3, 300, 1, false, 50, true, false⟩, ⟨4, 300, 1, false, 50, true, false⟩,
       ⟨5, 300, 1, false, 50, true, false⟩, ⟨6, 399, 1, false, 10, true, false⟩,
       ⟨7, 99, 1, false, 80, false, false⟩] ∧
    (Multi.frameScan c1State none).runways = 0 ∧
    (Multi.frameScan c1State none).lowest = some (6, ⟨7, 99, 1, false, 80, false, false⟩) ∧
    Multi.mostFueledScan (Multi.frameScan c1State none).planes
      (Multi.frameScan c1State none).landingIdxs = none := by
  refine ⟨by decide, by decide, by decide, Multi.mostFueledScan_eq_none _ _⟩

/-- Configuration errors of the validated trial construction that the
specification requires. -/
inductive ConfigError where
  | invalidRunwayCount
  | invalidSpawnProbability
  deriving DecidableEq

/-- Modelled from the spec: trial construction as §7 of the specification
demands it — a `runwayCount` of zero or negative and a spawn probability
that is negative or greater than 1 are rejected (fail fast) at
trial-construction time.  No such validation, and no such configuration
surface, exists anywhere in the source: `new Simulation(runNumber,
control)` takes no runway count and no spawn probability. -/
def specValidatedConstruct (runwayCount : Int) (spawnProbability : Rat)
    (runNumber : Nat) (control : Bool) : Except ConfigError SimState :=
  if runwayCount ≤ 0 then Except.error ConfigError.invalidRunwayCount
  else if spawnProbability < 0 ∨ 1 < spawnProbability then
    Except.error ConfigError.invalidSpawnProbability
  else Except.ok (Simulation.construct runNumber control)

/-- C7, counterexample.  The code's trial construction has no runway-count
or spawn-probability parameter at all and never rejects anything: it is a
total function producing the same record shape for every input, while the
spec-modelled validated construction rejects a zero runway count and an
out-of-range spawn probability.  Nothing in the code fails fast at
construction time. -/
theorem c7_counterexample :
    Simulation.construct 1 false =
      { airplanes := [], frameNumber := 0, framerate := 60, runNumber := 1,
        control := false } ∧
    Simulation.construct 0 true =
      { airplanes := [], frameNumber := 0, framerate := 60, runNumber := 0,
        control := true } ∧
    specValidatedConstruct 0 (1 / 100) 1 false
      = Except.error ConfigError.invalidRunwayCount ∧
    specValidatedConstruct 6 2 1 false
      = Except.error ConfigError.invalidSpawnProbability := by
  refine ⟨rfl, rfl, ?_, ?_⟩ <;> norm_num [specValidatedConstruct]

/-- C7, amended.  Trial construction takes only a run number and a control
flag and always succeeds with the same initial state; the runway capacity
is the hardcoded constant 6 inside the multi-runway tick (the single-runway
variant has no capacity variable at all) and no configuration validation
exists. -/
theorem c7_construction_never_rejects :
    ∀ (n : Nat) (c : Bool),
      Simulation.construct n c =
        { airplanes := [], frameNumber := 0, framerate := 60, runNumber := n,
          control := c } ∧
      Multi.initAcc.runways = 6 :=
  fun n c => ⟨rfl, rfl⟩

/-- C8.  A trial is deterministic in its random draws: two runs of the
same trial (same run number) that receive identical draw sequences over
the 10,000-frame horizon and the same control flag produce identical final
crash counts, in both variants. -/
theorem c8_determinism :
    ∀ (n : Nat) (c1 c2 : Bool) (draws1 draws2 : List (Option Nat)),
      c1 = c2 → draws1 = draws2 → draws1.length = 10000 →
      crashCount (Multi.runFrom (Simulation.construct n c1) draws1)
        = crashCount (Multi.runFrom (Simulation.construct n c2) draws2) ∧
      crashCount (Single.runFrom (Simulation.construct n c1) draws1)
        = crashCount (Single.runFrom (Simulation.construct n c2) draws2) := by
  intro n c1 c2 draws1 draws2 hc hd hlen
  subst hc
  subst hd
  exact ⟨rfl, rfl⟩

/-- Witness for C8 at a concrete 10,000-frame draw sequence. -/
theorem c8_witness :
    (List.replicate 10000 (none : Option Nat)).length = 10000 ∧
    crashCount (Multi.runFrom (Simulation.construct 1 false)
        (List.replicate 10000 none))
      = crashCount (Multi.runFrom (Simulation.construct 1 false)
        (List.replicate 10000 none)) ∧
    crashCount (Single.runFrom (Simulation.construct 1 false)
        (List.replicate 10000 none))
      = crashCount (Single.runFrom (Simulation.construct 1 false)
        (List.replicate 10000 none)) := by
  refine ⟨by simp only [List.length_replicate], ?_, ?_⟩
  · exact (c8_determinism 1 false false _ _ rfl rfl
      (by simp only [List.length_replicate])).1
  · exact (c8_determinism 1 false false _ _ rfl rfl
      (by simp only [List.length_replicate])).2

/-- C10.  In both variants spawning happens before the per-airplane ticks
of the same frame: a frame with a spawn draw scans one more plane than the
state had, and the new plane's scanned state is its ticked state (it loses
its first liter of fuel on its spawn frame).  Concretely, a plane spawned
with exactly 100 liters at frame 1 is admitted on its spawn frame (fuel
99, landing) and finishes landed with 19 liters after its 80 landing
frames — in the multi-runway variant it is additionally re-admitted on its
landing frame, leaving its stale `landing` flag set. -/
theorem c10_spawn_before_tick :
    (∀ (s : SimState) (r : Nat),
      (Multi.frameScan s (some r)).planes.length = s.airplanes.length + 1 ∧
      (Multi.frameScan s (some r)).planes[s.airplanes.length]?
        = some ((Airplane.init (s.airplanes.length + 1) r).tick) ∧
      (Single.frameScan s (some r)).planes.length = s.airplanes.length + 1 ∧
      (Single.frameScan s (some r)).planes[s.airplanes.length]?
        = some ((Airplane.init (s.airplanes.length + 1) r).tick)) ∧
    (Multi.runFrom (Simulation.construct 1 false) [some 0]).airplanes
      = [⟨1, 99, 1, false, 80, true, false⟩] ∧
    (Multi.runFrom (Simulation.construct 1 false)
        (some 0 :: List.replicate 80 none)).airplanes
      = [⟨1, 19, 1, false, 0, true, true⟩] ∧
    (Single.runFrom (Simulation.construct 1 false) [some 0]).airplanes
      = [⟨1, 99, 1, false, 80, true, false⟩] ∧
    (Single.runFrom (Simulation.construct 1 false)
        (some 0 :: List.replicate 80 none)).airplanes
      = [⟨1, 19, 1, false, 0, false, true⟩] := by
  refine ⟨?_, by decide, by decide, by decide, by decide⟩
  intro s r
  refine ⟨?_, ?_, ?_, ?_⟩
  · rw [Multi.frameScan_planes]
    simp [spawnFrame, generateAirplane]
  · rw [Multi.frameScan_planes, List.getElem?_map]
    have hsp : (spawnFrame s (some r)).airplanes
        = s.airplanes ++ [Airplane.init (s.airplanes.length + 1) r] := rfl
    rw [hsp, List.getElem?_concat_length]
    simp [tickUnlessLanded, Airplane.init]
  · rw [Single.frameScan_planes_s]
    simp [spawnFrame, generateAirplane]
  · rw [Single.frameScan_planes_s, List.getElem?_map]
    have hsp : (spawnFrame s (some r)).airplanes
        = s.airplanes ++ [Airplane.init (s.airplanes.length + 1) r] := rfl
    rw [hsp, List.getElem?_concat_length]
    simp [tickUnlessLanded, Airplane.init]

theorem Multi.runFrom_control (s : SimState) (draws : List (Option Nat)) :
    (runFrom s draws).control = s.control := by
  induction draws generalizing s with
  | nil => rfl
  | cons d rest ih =>
      show (runFrom (tick s d) rest).control = s.control
      rw [ih (tick s d), tick_control]

theorem Single.runFrom_control_s (s : SimState) (draws : List (Option Nat)) :
    (runFrom s draws).control = s.control := by
  induction draws generalizing s with
  | nil => rfl
  | cons d rest ih =>
      show (runFrom (tick s d) rest).control = s.control
      rw [ih (tick s d), tick_control_s]

/-- C3, counterexample.  In the multi-runway variant under the control
policy, after a plane spawned with 100 liters lands on frame 81 it is
immediately re-admitted on that same frame (its `landing` flag is set
while it is already `landed`), so after a second plane spawns and is
admitted on frame 82 two airplanes simultaneously have `landing = true`
in a control trial — the claim's bound of one is violated (and the same
mechanism violates the bound of six in the test policy). -/
theorem c3_counterexample :
    landingTrueCount (Multi.runFrom (Simulation.construct 1 true)
      (some 0 :: (List.replicate 80 none ++ [some 0]))).airplanes = 2 ∧
    (Multi.runFrom (Simulation.construct 1 true)
      (some 0 :: (List.replicate 80 none ++ [some 0]))).airplanes
      = [⟨1, 19, 1, false, 0, true, true⟩, ⟨2, 99, 1, false, 80, true, false⟩] ∧
    (Multi.runFrom (Simulation.construct 1 true)
      (some 0 :: (List.replicate 80 none ++ [some 0]))).control = true := by
  refine ⟨by decide, by decide, by decide⟩

/-- C3, amended.  Counting only planes that are landing and not yet
landed (in the multi-runway variant a landed plane can retain a stale
`landing` flag), the bounds hold in every reachable state: at most 1
active lander under the control policy, at most 6 under the multi-runway
test policy; in the single-runway variant even the raw count of planes
with `landing = true` never exceeds 1 under either policy. -/
theorem c3_landing_bounds :
    ∀ (n : Nat) (draws : List (Option Nat)),
      activeLandingCount (Multi.runFrom (Simulation.construct n true) draws).airplanes
        ≤ 1 ∧
      activeLandingCount (Multi.runFrom (Simulation.construct n false) draws).airplanes
        ≤ 6 ∧
      (∀ c : Bool,
        landingTrueCount (Single.runFrom (Simulation.construct n c) draws).airplanes
          ≤ 1) := by
  intro n draws
  refine ⟨?_, ?_, ?_⟩
  · have h := (Multi.runFrom_SimInv (Simulation.construct n true) draws
      (Multi.construct_SimInv n true)).2
    rw [Multi.runFrom_control] at h
    simpa using h
  · have h := (Multi.runFrom_SimInv (Simulation.construct n false) draws
      (Multi.construct_SimInv n false)).2
    rw [Multi.runFrom_control] at h
    simpa using h
  · intro c
    exact (Single.runFrom_SimInv_s (Simulation.construct n c) draws
      (Single.construct_SimInv_s n c)).2.1

/-- C9.  In every reachable state of either variant, every airplane with
`landing = true` has `fuel ≥ altitude`; consequently no airplane is ever
simultaneously crashed and landing, and every landed airplane has
non-negative fuel. -/
theorem c9_landing_fuel_invariant :
    (∀ (n : Nat) (c : Bool) (draws : List (Option Nat)) (a : Airplane),
      a ∈ (Multi.runFrom (Simulation.construct n c) draws).airplanes →
        (a.landing = true → a.altitude ≤ a.fuel) ∧
        ¬(a.crashed = true ∧ a.landing = true) ∧
        (a.landed = true → 0 ≤ a.fuel)) ∧
    (∀ (n : Nat) (c : Bool) (draws : List (Option Nat)) (a : Airplane),
      a ∈ (Single.runFrom (Simulation.construct n c) draws).airplanes →
        (a.landing = true → a.altitude ≤ a.fuel) ∧
        ¬(a.crashed = true ∧ a.landing = true) ∧
        (a.landed = true → 0 ≤ a.fuel)) := by
  constructor
  · intro n c draws a ha
    have h := (Multi.runFrom_SimInv (Simulation.construct n c) draws
      (Multi.construct_SimInv n c)).1 a ha
    obtain ⟨_, _, _, _, h5, h6, h7⟩ := h
    refine ⟨h5, ?_, fun hl => (h7 hl).1⟩
    rintro ⟨hc, hl⟩
    have := (h6 hc).2.1
    rw [hl] at this
    cases this
  · intro n c draws a ha
    have h := (Single.runFrom_SimInv_s (Simulation.construct n c) draws
      (Single.construct_SimInv_s n c)).1 a ha
    obtain ⟨_, _, _, _, h5, h6, h7⟩ := h
    refine ⟨h5, ?_, fun hl => (h7 hl).1⟩
    rintro ⟨hc, hl⟩
    have := (h6 hc).2.1
    rw [hl] at this
    cases this

/-- Witness for C9 at a concrete reachable state in each variant. -/
theorem c9_witness :
    ((⟨1, 99, 1, false, 80, true, false⟩ : Airplane) ∈
      (Multi.runFrom (Simulation.construct 1 false) [some 0]).airplanes ∧
      ((⟨1, 99, 1, false, 80, true, false⟩ : Airplane).landing = true →
        (⟨1, 99, 1, false, 80, true, false⟩ : Airplane).altitude
          ≤ (⟨1, 99, 1, false, 80, true, false⟩ : Airplane).fuel)) ∧
    ((⟨1, 99, 1, false, 80, true, false⟩ : Airplane) ∈
      (Single.runFrom (Simulation.construct 1 false) [some 0]).airplanes ∧
      ¬((⟨1, 99, 1, false, 80, true, false⟩ : Airplane).crashed = true ∧
        (⟨1, 99, 1, false, 80, true, false⟩ : Airplane).landing = true)) := by
  constructor
  · exact ⟨by decide, (c9_landing_fuel_invariant.1 1 false [some 0] _ (by decide)).1⟩
  · exact ⟨by decide, (c9_landing_fuel_invariant.2 1 false [some 0] _ (by decide)).2.1⟩

/-- C4.  Once an airplane is landed or crashed at the end of some frame,
its entire record — fuel, altitude, landing, landed, crashed — is
unchanged by every subsequent frame, in both variants; and no airplane in
any reachable state is simultaneously landed and crashed. -/
theorem c4_terminal_frozen :
    (∀ (n : Nat) (c : Bool) (draws draws2 : List (Option Nat)) (k : Nat) (a : Airplane),
      (Multi.runFrom (Simulation.construct n c) draws).airplanes[k]? = some a →
      (a.landed = true ∨ a.crashed = true) →
      (Multi.runFrom (Multi.runFrom (Simulation.construct n c) draws) draws2).airplanes[k]?
        = some a) ∧
    (∀ (n : Nat) (c : Bool) (draws draws2 : List (Option Nat)) (k : Nat) (a : Airplane),
      (Single.runFrom (Simulation.construct n c) draws).airplanes[k]? = some a →
      (a.landed = true ∨ a.crashed = true) →
      (Single.runFrom (Single.runFrom (Simulation.construct n c) draws) draws2).airplanes[k]?
        = some a) ∧
    (∀ (n : Nat) (c : Bool) (draws : List (Option Nat)) (a : Airplane),
      a ∈ (Multi.runFrom (Simulation.construct n c) draws).airplanes →
        ¬(a.landed = true ∧ a.crashed = true)) ∧
    (∀ (n : Nat) (c : Bool) (draws : List (Option Nat)) (a : Airplane),
      a ∈ (Single.runFrom (Simulation.construct n c) draws).airplanes →
        ¬(a.landed = true ∧ a.crashed = true)) := by
  refine ⟨?_, ?_, ?_, ?_⟩
  · intro n c draws draws2 k a hk hterm
    exact Multi.runFrom_frozen _ draws2 k a
      (Multi.runFrom_SimInv _ draws (Multi.construct_SimInv n c)) hk hterm
  · intro n c draws draws2 k a hk hterm
    have hinv := Single.runFrom_SimInv_s _ draws (Single.construct_SimInv_s n c)
    exact Single.runFrom_frozen_s _ draws2 k a hinv hk hterm
      (fun hl => hinv.2.2 a (List.getElem?_mem hk) hl)
  · intro n c draws a ha
    have h := (Multi.runFrom_SimInv _ draws (Multi.construct_SimInv n c)).1 a ha
    rintro ⟨hld, hcr⟩
    have := (h.2.2.2.2.2.1 hcr).2.2
    rw [hld] at this
    cases this
  · intro n c draws a ha
    have h := (Single.runFrom_SimInv_s _ draws (Single.construct_SimInv_s n c)).1 a ha
    rintro ⟨hld, hcr⟩
    have := (h.2.2.2.2.2.1 hcr).2.2
    rw [hld] at this
    cases this

/-- Witness for C4: the plane that landed on frame 81 of a concrete trial
(with its stale `landing` flag in the multi-runway variant) keeps its
whole record over three further frames, in both variants, and is not
simultaneously landed and crashed. -/
theorem c4_witness :
    (Multi.runFrom (Multi.runFrom (Simulation.construct 1 true)
        (some 0 :: List.replicate 80 none)) [none, none, none]).airplanes[0]?
      = some ⟨1, 19, 1, false, 0, true, true⟩ ∧
    (Single.runFrom (Single.runFrom (Simulation.construct 1 true)
        (some 0 :: List.replicate 80 none)) [none, none, none]).airplanes[0]?
      = some ⟨1, 19, 1, false, 0, false, true⟩ ∧
    ¬((⟨1, 19, 1, false, 0, true, true⟩ : Airplane).landed = true ∧
      (⟨1, 19, 1, false, 0, true, true⟩ : Airplane).crashed = true) ∧
    ¬((⟨1, 19, 1, false, 0, false, true⟩ : Airplane).landed = true ∧
      (⟨1, 19, 1, false, 0, false, true⟩ : Airplane).crashed = true) := by
  refine ⟨?_, ?_, ?_, ?_⟩
  · exact c4_terminal_frozen.1 1 true (some 0 :: List.replicate 80 none)
      [none, none, none] 0 _ (by decide) (Or.inl (by decide))
  · exact c4_terminal_frozen.2.1 1 true (some 0 :: List.replicate 80 none)
      [none, none, none] 0 _ (by decide) (Or.inl (by decide))
  · exact c4_terminal_frozen.2.2.1 1 true (some 0 :: List.replicate 80 none) _
      (by decide)
  · exact c4_terminal_frozen.2.2.2 1 true (some 0 :: List.replicate 80 none) _
      (by decide)

/-- The claim's description of the "best candidate", as a predicate over
the pre-tick airplane list: the candidate sits at index `k`, passes the
eligibility test, carries the minimum post-tick fuel among all eligible
planes, and strictly beats every eligible plane earlier in scan order
(first-on-ties). -/
def bestCandidateAt (elig : Airplane → Bool) (ps : List Airplane) (k : Nat)
    (p : Airplane) : Prop :=
  (∃ a, ps[k]? = some a ∧ elig a = true ∧ p = tickUnlessLanded a) ∧
  (∀ (m : Nat) (b : Airplane), ps[m]? = some b → elig b = true →
    p.fuel ≤ (tickUnlessLanded b).fuel) ∧
  (∀ (m : Nat) (b : Airplane), m < k → ps[m]? = some b → elig b = true →
    p.fuel < (tickUnlessLanded b).fuel)

theorem bestBy_iff_bestCandidateAt (elig : Airplane → Bool) (ps : List Airplane)
    (k : Nat) (p : Airplane) :
    bestBy elig 0 ps = some (k, p) ↔ bestCandidateAt elig ps k p := by
  constructor
  · intro h
    refine ⟨?_, ?_, ?_⟩
    · obtain ⟨m, a, hma, hel, hk, hp⟩ := bestBy_sound elig ps 0 k p h
      have hm : m = k := by omega
      subst hm
      exact ⟨a, hma, hel, hp⟩
    · intro m b hmb hbe
      exact bestBy_min elig ps 0 k p h m b hmb hbe
    · intro m b hm hmb hbe
      exact bestBy_first elig ps 0 k p h m b hmb hbe (by omega)
  · rintro ⟨⟨a, hka, hae, hpa⟩, hmin, hfirst⟩
    cases hb : bestBy elig 0 ps with
    | none =>
        exfalso
        have := (bestBy_none_iff elig ps 0).mp hb a (List.getElem?_mem hka)
        rw [hae] at this
        cases this
    | some x =>
        obtain ⟨k2, p2⟩ := x
        obtain ⟨m2, b2, hm2, he2, hk2, hp2⟩ := bestBy_sound elig ps 0 k2 p2 hb
        have hm2k : m2 = k2 := by omega
        subst hm2k
        have h1 : p2.fuel ≤ (tickUnlessLanded a).fuel :=
          bestBy_min elig ps 0 _ _ hb k a hka hae
        have h2 : p.fuel ≤ (tickUnlessLanded b2).fuel := hmin m2 b2 hm2 he2
        rcases Nat.lt_trichotomy m2 k with hlt | heq | hgt
        · exfalso
          have h3 := hfirst m2 b2 hlt hm2 he2
          rw [← hp2] at h3
          rw [← hpa] at h1
          omega
        · subst heq
          rw [hka] at hm2
          injection hm2 with hm2
          rw [hp2, ← hm2, ← hpa]
        · exfalso
          have h3 := bestBy_first elig ps 0 _ _ hb k a hka hae (by omega)
          rw [← hpa] at h3
          rw [← hp2] at h2
          omega

/-- C2, counterexample.  In the single-runway variant a waiting plane
(after its tick: not landing, not landed, not crashed) whose fuel covers
its current altitude exists, yet the scan's `lowestAirplane` stays the
sentinel (`none`): the code filters on the constant 80, not on the
current altitude, so the claimed "best candidate" — which this plane
would be — is not selected. -/
theorem c2_counterexample :
    (Single.scan 0 Single.initAcc [⟨1, 80, 1, false, 41, false, false⟩]).lowest
      = none ∧
    (tickUnlessLanded ⟨1, 80, 1, false, 41, false, false⟩).landing = false ∧
    (tickUnlessLanded ⟨1, 80, 1, false, 41, false, false⟩).landed = false ∧
    (tickUnlessLanded ⟨1, 80, 1, false, 41, false, false⟩).crashed = false ∧
    (tickUnlessLanded ⟨1, 80, 1, false, 41, false, false⟩).altitude
      ≤ (tickUnlessLanded ⟨1, 80, 1, false, 41, false, false⟩).fuel := by
  refine ⟨by decide, by decide, by decide, by decide, by decide⟩

/-- C2, amended.  In both variants the scan's `lowestAirplane` is exactly
the first minimum-post-tick-fuel plane among the planes passing the
code's eligibility test, but the tests differ from the claim: the
multi-runway variant admits planes not landed before their tick and not
landing after it with post-tick `fuel ≥ altitude` (which includes a plane
that finished its landing on this very frame, at altitude 0), while the
single-runway variant admits planes not landed after their tick with
post-tick `fuel ≥ 80` (the fixed constant instead of the current
altitude, and the currently landing plane is not excluded).  Ties go to
the first plane in scan order, as claimed. -/
theorem c2_best_candidate_characterization :
    ∀ (c : Bool) (ps : List Airplane) (k : Nat) (p : Airplane),
      ((Multi.scan c 0 Multi.initAcc ps).lowest = some (k, p) ↔
        bestCandidateAt Multi.elig ps k p) ∧
      ((Single.scan 0 Single.initAcc ps).lowest = some (k, p) ↔
        bestCandidateAt Single.elig ps k p) := by
  intro c ps k p
  constructor
  · rw [Multi.scan0_lowest]
    exact bestBy_iff_bestCandidateAt Multi.elig ps k p
  · rw [Single.scan0_lowest_s]
    exact bestBy_iff_bestCandidateAt Single.elig ps k p

/-- Witness for C2 at a concrete scan. -/
theorem c2_witness :
    bestCandidateAt Single.elig [⟨1, 200, 1, false, 80, false, false⟩] 0
      (tickUnlessLanded ⟨1, 200, 1, false, 80, false, false⟩) :=
  ((c2_best_candidate_characterization false [⟨1, 200, 1, false, 80, false, false⟩] 0
    (tickUnlessLanded ⟨1, 200, 1, false, 80, false, false⟩)).2).mp (by decide)

/-- C5, counterexample.  The frame does not invoke `tick` on every
airplane: a landed airplane is skipped entirely.  On a state holding one
landed, non-crashed plane with 20 liters of fuel, a frame of either
variant leaves the fuel at 20, whereas `Airplane.tick` — which the claim
says is invoked — would burn it to 19. -/
theorem c5_counterexample :
    (Multi.tick ⟨[⟨1, 20, 1, false, 0, false, true⟩], 0, 60, 1, false⟩ none).airplanes
      = [⟨1, 20, 1, false, 0, false, true⟩] ∧
    (Single.tick ⟨[⟨1, 20, 1, false, 0, false, true⟩], 0, 60, 1, false⟩ none).airplanes
      = [⟨1, 20, 1, false, 0, false, true⟩] ∧
    (Airplane.tick ⟨1, 20, 1, false, 0, false, true⟩).fuel = 19 := by
  refine ⟨by decide, by decide, by decide⟩

/-- C5, amended.  For every airplane not yet landed, the frame invokes its
per-frame tick (landed planes are skipped); the tick itself is a no-op
when `crashed`, otherwise it burns exactly `fuelRate = 1` liter, a
landing plane additionally descends by 1 and becomes landed exactly when
its altitude reaches 0, and a non-landing plane becomes crashed exactly
when its post-decrement fuel is `≤ 0`. -/
theorem c5_tick_semantics :
    (∀ a : Airplane, a.crashed = true → a.tick = a) ∧
    (∀ a : Airplane, a.crashed = false → a.fuelRate = 1 →
      (a.tick).fuel = a.fuel - 1 ∧
      (a.landing = true →
        (a.tick).altitude = a.altitude - 1 ∧
        (a.altitude - 1 = 0 → (a.tick).landing = false ∧ (a.tick).landed = true) ∧
        (a.altitude - 1 ≠ 0 → (a.tick).landing = a.landing ∧ (a.tick).landed = a.landed) ∧
        (a.tick).crashed = false) ∧
      (a.landing = false →
        (a.tick).altitude = a.altitude ∧
        (a.tick).landing = false ∧
        (a.tick).landed = a.landed ∧
        ((a.tick).crashed = true ↔ a.fuel - 1 ≤ 0))) ∧
    (∀ (c : Bool) (ps : List Airplane),
      (Multi.scan c 0 Multi.initAcc ps).planes
        = ps.map (fun a => if a.landed then a else a.tick)) ∧
    (∀ ps : List Airplane,
      (Single.scan 0 Single.initAcc ps).planes
        = ps.map (fun a => if a.landed then a else a.tick)) := by
  refine ⟨?_, ?_, ?_, ?_⟩
  · intro a h
    exact a.tick_of_crashed h
  · intro a hc hr
    refine ⟨?_, ?_, ?_⟩
    · simp only [Airplane.tick, Airplane.handleLanding, Airplane.handleCrash, hc,
        Bool.false_eq_true, if_false, hr]
      split_ifs <;> rfl
    · intro hl
      simp only [Airplane.tick, Airplane.handleLanding, hc, hl, Bool.false_eq_true,
        if_false, if_true, hr]
      split_ifs with h0
      · exact ⟨rfl, fun _ => ⟨rfl, rfl⟩, fun hne => absurd h0 hne, rfl⟩
      · exact ⟨rfl, fun h' => absurd h' h0, fun _ => ⟨rfl, rfl⟩, rfl⟩
    · intro hl
      simp only [Airplane.tick, Airplane.handleCrash, hc, hl, Bool.false_eq_true,
        if_false, hr]
      split_ifs with h0
      · exact ⟨rfl, rfl, rfl, iff_of_true rfl h0⟩
      · refine ⟨rfl, rfl, rfl, ?_⟩
        constructor
        · intro hcr
          exact hcr.elim
        · intro hle
          exact absurd hle h0
  · intro c ps
    rw [Multi.scan0_planes]
    rfl
  · intro ps
    rw [Single.scan0_planes_s]
    rfl

/-- Witness for C5 at a concrete landing airplane. -/
theorem c5_witness :
    (Airplane.tick ⟨1, 100, 1, false, 80, true, false⟩).fuel = 100 - 1 ∧
    (Airplane.tick ⟨1, 100, 1, false, 80, true, false⟩).altitude = 80 - 1 ∧
    Airplane.tick ⟨2, 5, 1, true, 40, false, false⟩ = ⟨2, 5, 1, true, 40, false, false⟩ := by
  have h := c5_tick_semantics.2.1 ⟨1, 100, 1, false, 80, true, false⟩ (by decide) (by decide)
  exact ⟨h.1, (h.2.1 (by decide)).1, c5_tick_semantics.1 _ (by decide)⟩

/-- C6.  In the single-runway variant under the reprioritization-enabled
policy, on a frame with a landing plane `q` (captured at index `j`):
preemption never fires when `q.fuel < 81 + q.altitude` or when the best
candidate's fuel is not strictly below `q.fuel` (the frame then leaves
the post-scan list untouched, so at most one preemption — in fact none —
occurs); and when it does fire, the frame changes exactly the two planes'
`landing` flags: every other index is untouched, the preempted plane
keeps its fuel and altitude with only `landing` set to false, and the
candidate keeps its record with only `landing` set to true. -/
theorem c6_preemption_guard :
    ∀ (s : SimState) (d : Option Nat) (j : Nat) (q : Airplane),
      s.control = false →
      (Single.frameScan s d).landingPlane = some (j, q) →
      q.planeNumber ≠ 0 →
      ((∀ (i : Nat) (p : Airplane), (Single.frameScan s d).lowest = some (i, p) →
          (q.fuel < 81 + q.altitude ∨ q.fuel ≤ p.fuel) →
          (Single.tick s d).airplanes = (Single.frameScan s d).planes) ∧
       ((Single.frameScan s d).lowest = none →
          (Single.tick s d).airplanes = (Single.frameScan s d).planes) ∧
       (∀ (i : Nat) (p : Airplane), (Single.frameScan s d).lowest = some (i, p) →
          p.fuel < q.fuel → 81 + q.altitude ≤ q.fuel →
          i ≠ j ∧
          (Single.tick s d).airplanes
            = setLanding (setLanding (Single.frameScan s d).planes j false) i true ∧
          (∀ m : Nat, m ≠ i → m ≠ j →
            (Single.tick s d).airplanes[m]? = (Single.frameScan s d).planes[m]?) ∧
          (Single.tick s d).airplanes[j]? = some { q with landing := false } ∧
          (Single.tick s d).airplanes[i]? = some { p with landing := true })) := by
  intro s d j q hcon hlp hqn
  have hpl := Single.landingPlane_some_planeLanding s d j q hlp
  have htick := Single.tick_airplanes_some s d j q hlp
  rw [if_pos ⟨hqn, hcon⟩, hpl, Single.startPlaneLanding_of_true] at htick
  refine ⟨?_, ?_, ?_⟩
  · intro i p hlow hng
    rw [htick, hlow, Single.prioritize_some, if_neg]
    rintro ⟨h1, h2⟩
    rcases hng with h | h <;> omega
  · intro hlow
    rw [htick, hlow, Single.prioritize_none]
  · intro i p hlow hlt hmargin
    have hbest : bestBy Single.elig 0 (spawnFrame s d).airplanes = some (i, p) := by
      rw [← Single.frameScan_lowest_s]
      exact hlow
    obtain ⟨m, b, hmb, hbe, hkm, hb⟩ := bestBy_sound Single.elig _ 0 i p hbest
    have hpi : (Single.frameScan s d).planes[i]? = some p := by
      have hm : m = i := by omega
      rw [hm] at hmb
      rw [Single.frameScan_planes_s, List.getElem?_map, hmb, hb]
      rfl
    obtain ⟨hqj, hql, _⟩ := Single.landingPlane_target s d j q hlp
    have hij : i ≠ j := by
      intro he
      rw [he, hqj] at hpi
      injection hpi with hpi
      rw [hpi] at hlt
      omega
    refine ⟨hij, ?_, ?_, ?_, ?_⟩
    · rw [htick, hlow, Single.prioritize_some, if_pos ⟨hlt, hmargin⟩]
    · intro m' hmi hmj
      rw [htick, hlow, Single.prioritize_some, if_pos ⟨hlt, hmargin⟩]
      unfold setLanding
      rw [listModify_getElem?, if_neg hmi, listModify_getElem?, if_neg hmj]
    · rw [htick, hlow, Single.prioritize_some, if_pos ⟨hlt, hmargin⟩]
      unfold setLanding
      rw [listModify_getElem?, if_neg (fun hh => hij hh.symm),
        listModify_getElem?, if_pos rfl, hqj]
      rfl
    · rw [htick, hlow, Single.prioritize_some, if_pos ⟨hlt, hmargin⟩]
      unfold setLanding
      rw [listModify_getElem?, if_pos rfl, listModify_getElem?, if_neg hij, hpi]
      rfl

/-- Witness for C6: on a concrete frame the preemption fires, halting the
landing plane (post-tick fuel 200, altitude 10, `200 ≥ 91`) in favour of
the lower-fuel candidate (post-tick fuel 90), and changing only the two
`landing` flags. -/
theorem c6_witness :
    (Single.tick ⟨[⟨1, 201, 1, false, 11, true, false⟩,
        ⟨2, 91, 1, false, 80, false, false⟩], 0, 60, 1, false⟩ none).airplanes[0]?
      = some ⟨1, 200, 1, false, 10, false, false⟩ ∧
    (Single.tick ⟨[⟨1, 201, 1, false, 11, true, false⟩,
        ⟨2, 91, 1, false, 80, false, false⟩], 0, 60, 1, false⟩ none).airplanes[1]?
      = some ⟨2, 90, 1, false, 80, true, false⟩ := by
  have h := (c6_preemption_guard
    ⟨[⟨1, 201, 1, false, 11, true, false⟩, ⟨2, 91, 1, false, 80, false, false⟩],
      0, 60, 1, false⟩ none 0 ⟨1, 200, 1, false, 10, true, false⟩
    rfl (by decide) (by decide)).2.2 1 ⟨2, 90, 1, false, 80, false, false⟩
    (by decide) (by decide) (by decide)
  exact ⟨h.2.2.2.1, h.2.2.2.2⟩
